import Mathlib

/-!
Circular queue of upcoming pieces (`tetris.c`).

A shallow embedding of `src/tetris.c`: the record types `Peca` and
`FilaCircular`, the queue operations `inicializarFila`, `gerarPeca`,
`filaCheia`, `filaVazia`, `inserirPeca`, `removerPeca`, the display walk of
`exibirFila` and the loop of `menuPrincipal` on a finite user input.

Conventions of the embedding.

* A C `int` is an `Int`; the result of `+ 1` / `- 1` on an `int` is passed
  through `wrapInt` (two's complement, 32 bits), and C's `%` is `Int.tmod`
  (truncation towards zero).
* The array `pecas[CAPACIDADE_FILA]` is a function `Fin 5 → Peca`.  An access
  at an index outside `[0, 5)` takes the out-of-bounds branch of `lerPeca` /
  `gravarPeca`.
* `rand()` is a parameter `r : Nat` of the function that calls it;
  `srand(time(NULL))` only seeds it and has no counterpart.
* `printf` output is not part of the state; `exibirFila` returns what it
  prints.
* Line 50 calls `gerarPeca()` with no argument, while `gerarPeca` reads and
  increments `proximo_id` through its parameter `fila`.  What that parameter
  designates in such a call is not fixed by the program; it is the parameter
  `alvo` of `inicializarFila` (see `Alvo`).
-/

namespace Tetris

/-! ## Machine integers -/

/-- Two's complement wrap-around of an arithmetic result to a 32-bit `int`,
whose values run from `INT_MIN = -2147483648` to `INT_MAX = 2147483647`. -/
def wrapInt (x : Int) : Int := (x + 2147483648) % 4294967296 - 2147483648

/-- A value is representable as a C `int`. -/
def ehInt (x : Int) : Prop := -2147483648 ≤ x ∧ x ≤ 2147483647

instance (x : Int) : Decidable (ehInt x) := by unfold ehInt; exact inferInstance

/-! ## Data model -/

/-- The macro `#define CAPACIDADE_FILA 5`. -/
def CAPACIDADE_FILA : Int := 5

/-- The record `typedef struct { int id; char nome[NOME_PECA_MAX]; } Peca;` -/
structure Peca where
  id : Int
  nome : String
deriving DecidableEq, Repr

/-- The record `typedef struct { Peca pecas[CAPACIDADE_FILA]; int frente; int tras;
int tamanho; int proximo_id; } FilaCircular;` -/
structure FilaCircular where
  pecas : Fin 5 → Peca
  frente : Int
  tras : Int
  tamanho : Int
  proximo_id : Int

/-- The read `pecas[i]`.  Outside `[0, 5)` the read is out of bounds and the
embedding yields a fixed piece. -/
def lerPeca (pecas : Fin 5 → Peca) (i : Int) : Peca :=
  if h : 0 ≤ i ∧ i < 5 then pecas ⟨i.toNat, by omega⟩ else ⟨0, ""⟩

/-- The write `pecas[i] = p`.  Outside `[0, 5)` the write is out of bounds and
the embedding leaves the array as it is; the C store lands outside the array
there (on the fields that follow it, for `i = 5` and `i = 6`), which the
embedding does not follow, so a statement about this write is about an index
in `[0, 5)`. -/
def gravarPeca (pecas : Fin 5 → Peca) (i : Int) (p : Peca) : Fin 5 → Peca :=
  if 0 ≤ i ∧ i < 5 then fun j => if j.val = i.toNat then p else pecas j else pecas

/-! ## Operations -/

/-- The table `tipos[]` of `gerarPeca`. -/
def tipos : List String := ["I", "O", "T", "L", "J", "Z", "S"]

/-- Function `Peca gerarPeca(FilaCircular *fila)`: the id is `fila->proximo_id++`, the
name is `tipos[rand() % num_tipos]`; `r` is the value returned by `rand()`. -/
def gerarPeca (fila : FilaCircular) (r : Nat) : Peca × FilaCircular :=
  let novaId := fila.proximo_id
  let fila1 := { fila with proximo_id := wrapInt (fila.proximo_id + 1) }
  let num_tipos := tipos.length
  let indice_aleatorio := r % num_tipos
  ({ id := novaId, nome := tipos.getD indice_aleatorio "" }, fila1)

/-- Function `int filaCheia(FilaCircular *fila)`. -/
def filaCheia (fila : FilaCircular) : Bool := fila.tamanho == CAPACIDADE_FILA

/-- Function `int filaVazia(FilaCircular *fila)`. -/
def filaVazia (fila : FilaCircular) : Bool := fila.tamanho == 0

/-- Function `void inserirPeca(FilaCircular *fila, Peca novaPeca)`: on a full queue the
error message is printed and the function returns; otherwise the piece is
written at `tras`, `tras` advances modulo the capacity and `tamanho` grows. -/
def inserirPeca (fila : FilaCircular) (novaPeca : Peca) : FilaCircular :=
  if filaCheia fila then fila
  else
    { fila with
      pecas := gravarPeca fila.pecas fila.tras novaPeca
      tras := Int.tmod (wrapInt (fila.tras + 1)) CAPACIDADE_FILA
      tamanho := wrapInt (fila.tamanho + 1) }

/-- The piece `{0, ""}` returned by `removerPeca` on an empty queue. -/
def pecaVazia : Peca := ⟨0, ""⟩

/-- Function `Peca removerPeca(FilaCircular *fila)`: on an empty queue the error
message is printed and `pecaVazia` is returned; otherwise the piece at
`frente` is returned, `frente` advances modulo the capacity and `tamanho`
shrinks. -/
def removerPeca (fila : FilaCircular) : Peca × FilaCircular :=
  if filaVazia fila then (pecaVazia, fila)
  else
    let pecaRemovida := lerPeca fila.pecas fila.frente
    (pecaRemovida,
      { fila with
        frente := Int.tmod (wrapInt (fila.frente + 1)) CAPACIDADE_FILA
        tamanho := wrapInt (fila.tamanho - 1) })

/-- What the parameter `fila` of `gerarPeca` designates in a call that passes
no argument (line 50, `gerarPeca()`): the callee reads and increments
`proximo_id` through a pointer the caller never supplied.  Either the pointer
happens to designate the queue being initialised, or it designates other
storage whose `int` at the offset of `proximo_id` holds `valor`.  A pointer
into the middle of the queue, or one that cannot be dereferenced, is outside
the embedding. -/
inductive Alvo where
  | estaFila
  | outro (valor : Int)
deriving DecidableEq, Repr

/-- The call `gerarPeca()` of line 50: `gerarPeca` run on what `alvo`
designates.  With `Alvo.outro` the increment lands outside the queue, which is
left as it is. -/
def gerarPecaSemArgumento (fila : FilaCircular) (alvo : Alvo) (r : Nat) :
    Peca × FilaCircular :=
  match alvo with
  | Alvo.estaFila => gerarPeca fila r
  | Alvo.outro valor => ((gerarPeca { fila with proximo_id := valor } r).1, fila)

/-- The loop `for (int i = 0; i < CAPACIDADE_FILA; i++) inserirPeca(fila,
gerarPeca());` with `n` iterations left, at loop index `i`. -/
def inicializarLaco (alvo : Nat → Alvo) (r : Nat → Nat) :
    Nat → Nat → FilaCircular → FilaCircular
  | 0, _, fila => fila
  | n + 1, i, fila =>
    let (novaPeca, fila1) := gerarPecaSemArgumento fila (alvo i) (r i)
    inicializarLaco alvo r n (i + 1) (inserirPeca fila1 novaPeca)

/-- Function `void inicializarFila(FilaCircular *fila)`.  `alvo i` is what the missing
argument of the `i`-th call `gerarPeca()` designates and `r i` the value of
`rand()` in that call. -/
def inicializarFila (fila : FilaCircular) (alvo : Nat → Alvo) (r : Nat → Nat) :
    FilaCircular :=
  inicializarLaco alvo r 5 0
    { fila with frente := 0, tras := 0, tamanho := 0, proximo_id := 1 }

/-- The loop `while (count < fila->tamanho)` of `exibirFila` with `n`
iterations left, at array index `i`: the pieces printed, in order. -/
def exibirLaco (pecas : Fin 5 → Peca) : Nat → Int → List Peca
  | 0, _ => []
  | n + 1, i =>
    lerPeca pecas i :: exibirLaco pecas n (Int.tmod (wrapInt (i + 1)) CAPACIDADE_FILA)

/-- What `exibirFila` prints after the header. -/
structure Exibicao where
  /-- The pieces between the brackets of `Fila: [...]`, in order. -/
  itens : List Peca
  /-- The piece of the line `Próxima Peça (FRENTE)`. -/
  proxima : Option Peca
  /-- The index of the line `Posição de Inserção (TRÁS)`. -/
  insercao : Option Int
deriving DecidableEq, Repr

/-- Function `void exibirFila(FilaCircular *fila)`: on an empty queue only
`A fila está vazia.`; otherwise `count` runs from `0` while
`count < tamanho`, that is `tamanho.toNat` iterations starting at `frente`. -/
def exibirFila (fila : FilaCircular) : Exibicao :=
  if filaVazia fila then ⟨[], none, none⟩
  else
    { itens := exibirLaco fila.pecas fila.tamanho.toNat fila.frente
      proxima := some (lerPeca fila.pecas fila.frente)
      insercao := some fila.tras }

/-- The snapshot of the queue: the pieces `exibirFila` walks, oldest first. -/
def snapshot (fila : FilaCircular) : List Peca := (exibirFila fila).itens

/-- The ids of the snapshot. -/
def snapshotIds (fila : FilaCircular) : List Int := (snapshot fila).map Peca.id

/-- The `case 1` of `menuPrincipal`: remove the front piece and, when the id of
the returned piece is not `0`, generate a replacement and insert it. -/
def jogar (fila : FilaCircular) (r : Nat) : FilaCircular :=
  let (pecaJogada, fila1) := removerPeca fila
  if pecaJogada.id != 0 then
    let (novaPeca, fila2) := gerarPeca fila1 r
    inserirPeca fila2 novaPeca
  else fila1

/-- The value of `opcao` after lines 176-180: what `scanf("%d", &opcao)` read,
or `-1` when it read no number (`entrada = none`).  The number read is a value
of the `int` `opcao` (`entradaInt`); what `scanf` stores for a typed number
outside that range is not modelled. -/
def lerOpcao (entrada : Option Int) : Int :=
  match entrada with
  | some v => v
  | none => -1

/-- One iteration of the `do ... while (opcao != 0)` loop of `menuPrincipal`.
The value `r` is what `rand()` returns should the iteration call it.  Returns
the new state and `opcao`. -/
def menuPasso (fila : FilaCircular) (entrada : Option Int) (r : Nat) :
    FilaCircular × Int :=
  let opcao : Int := lerOpcao entrada
  if opcao = 1 then (jogar fila r, opcao)
  else if opcao = 2 then (fila, opcao)
  else if opcao = 0 then (fila, opcao)
  else (fila, opcao)

/-- Function `void menuPrincipal(FilaCircular *fila)` on a finite prefix of the user's
input: the state when the loop ends (`opcao == 0`) or the prefix is used up. -/
def menuPrincipal (fila : FilaCircular) : List (Option Int × Nat) → FilaCircular
  | [] => fila
  | (entrada, r) :: resto =>
    let (fila1, opcao) := menuPasso fila entrada r
    if opcao != 0 then menuPrincipal fila1 resto else fila1

/-- A call of one of the three queue functions a caller may make. -/
inductive Op where
  | inserir (p : Peca)
  | remover
  | gerar (r : Nat)
deriving DecidableEq, Repr

/-- The state after one call. -/
def aplicar (fila : FilaCircular) : Op → FilaCircular
  | Op.inserir p => inserirPeca fila p
  | Op.remover => (removerPeca fila).2
  | Op.gerar r => (gerarPeca fila r).2

/-- The state after a finite sequence of calls. -/
def executar (fila : FilaCircular) (ops : List Op) : FilaCircular :=
  ops.foldl aplicar fila

/-- The number of `gerarPeca` calls in a sequence of calls. -/
def numGerar : List Op → Nat
  | [] => 0
  | Op.gerar _ :: resto => numGerar resto + 1
  | _ :: resto => numGerar resto

/-- The ids returned by the `gerarPeca` calls of a sequence of calls started
in `fila`, in the order of the calls. -/
def idsGerados : FilaCircular → List Op → List Int
  | _, [] => []
  | fila, Op.gerar r :: resto =>
    (gerarPeca fila r).1.id :: idsGerados (gerarPeca fila r).2 resto
  | fila, Op.inserir p :: resto => idsGerados (inserirPeca fila p) resto
  | fila, Op.remover :: resto => idsGerados (removerPeca fila).2 resto

/-- The number of selections of option 1 in a user input. -/
def numJogadas : List (Option Int × Nat) → Nat
  | [] => 0
  | (entrada, _) :: resto =>
    if lerOpcao entrada = 1 then numJogadas resto + 1 else numJogadas resto

/-- The user input that selects option 1 once for each element of `rs`, the
element being what `rand()` returns in that iteration. -/
def jogadasCom (rs : List Nat) : List (Option Int × Nat) :=
  rs.map (fun x => (some 1, x))

/-- The ring invariant of the data model: both indices in `[0, 5)`, the
occupancy in `[0, 5]`, and `tras` determined by `frente` and `tamanho`. -/
structure Anel (fila : FilaCircular) : Prop where
  frente_nonneg : 0 ≤ fila.frente
  frente_lt : fila.frente < 5
  tamanho_nonneg : 0 ≤ fila.tamanho
  tamanho_le : fila.tamanho ≤ 5
  tras_eq : fila.tras = (fila.frente + fila.tamanho) % 5

/-- A full queue in step with the counter: the ring invariant holds, the
queue holds five pieces whose ids are the 32-bit values of `c .. c + 4`, and
`proximo_id` is the 32-bit value of `c + 5`.  `c` counts the pieces generated
so far without wrapping. -/
structure Cheia (c : Int) (fila : FilaCircular) : Prop where
  anel : Anel fila
  tamanho_eq : fila.tamanho = 5
  ids : snapshotIds fila =
    [wrapInt c, wrapInt (c + 1), wrapInt (c + 2), wrapInt (c + 3), wrapInt (c + 4)]
  contador : fila.proximo_id = wrapInt (c + 5)

/-- The array indices the loop of `exibirFila` reads, in order: the index
passed to `lerPeca` in each iteration of `exibirLaco`. -/
def indicesLaco : Nat → Int → List Int
  | 0, _ => []
  | n + 1, i => i :: indicesLaco n (Int.tmod (wrapInt (i + 1)) CAPACIDADE_FILA)

/-- Every index at which `exibirFila` reads `pecas`: none on an empty queue,
otherwise the indices of the loop followed by `frente` (line 153). -/
def acessosExibir (fila : FilaCircular) : List Int :=
  if filaVazia fila then [] else indicesLaco fila.tamanho.toNat fila.frente ++ [fila.frente]

/-- The number typed at the menu, if any, is a value of the `int` `opcao`
that `scanf("%d", &opcao)` stores it in. -/
def entradaInt (entrada : Option Int) : Prop :=
  match entrada with
  | some v => -2147483648 ≤ v ∧ v ≤ 2147483647
  | none => True

instance (entrada : Option Int) : Decidable (entradaInt entrada) :=
  match entrada with
  | some v => inferInstanceAs (Decidable (-2147483648 ≤ v ∧ v ≤ 2147483647))
  | none => inferInstanceAs (Decidable True)

/-- A full queue whose ids stay clear of `0` for as long as the counter
allows: the ring invariant holds, the queue holds five pieces, `proximo_id`
is the 32-bit value of `c ≥ 1`, and the piece at position `i` of the snapshot
has a non-zero id whenever `c + i < 2^32 + 5`.  A piece generated from the
counter value `c` reaches position `4` at once and the front after four more
play actions. -/
structure Plena (c : Int) (fila : FilaCircular) : Prop where
  anel : Anel fila
  tamanho_eq : fila.tamanho = 5
  contador : fila.proximo_id = wrapInt c
  positivo : 1 ≤ c
  ids : ∃ a0 a1 a2 a3 a4 : Int, snapshotIds fila = [a0, a1, a2, a3, a4] ∧
    (c < 4294967301 → a0 ≠ 0) ∧ (c + 1 < 4294967301 → a1 ≠ 0) ∧
    (c + 2 < 4294967301 → a2 ≠ 0) ∧ (c + 3 < 4294967301 → a3 ≠ 0) ∧
    (c + 4 < 4294967301 → a4 ≠ 0)

/-- A queue memory before initialisation, every field zero. -/
def filaZerada : FilaCircular :=
  { pecas := fun _ => ⟨0, ""⟩, frente := 0, tras := 0, tamanho := 0, proximo_id := 0 }

/-- A queue holding three pieces that wrap around the end of the array. -/
def filaExemplo : FilaCircular :=
  { pecas := fun i => ⟨i.val + 10, "T"⟩, frente := 3, tras := 1, tamanho := 3,
    proximo_id := 20 }

/-- A full queue whose oldest piece sits at index 2. -/
def filaCheiaExemplo : FilaCircular :=
  { pecas := fun i => ⟨i.val + 10, "L"⟩, frente := 2, tras := 2, tamanho := 5,
    proximo_id := 20 }

/-- An empty queue whose indices sit at 4. -/
def filaVaziaExemplo : FilaCircular :=
  { pecas := fun i => ⟨i.val + 10, "S"⟩, frente := 4, tras := 4, tamanho := 0,
    proximo_id := 20 }

/-- Every call `gerarPeca()` of `inicializarFila` reaches storage outside the
queue; the `i`-th call reads `100 + i` there. -/
def alvoFora : Nat → Alvo := fun i => Alvo.outro (100 + i)

/-- Every call `gerarPeca()` of `inicializarFila` reaches storage outside the
queue; the `i`-th call reads `i` there, so the first id is `0`. -/
def alvoZero : Nat → Alvo := fun i => Alvo.outro i

/-- The first call `gerarPeca()` of `inicializarFila` reads `-1` from storage
outside the queue and the other four reach the queue, as when the register of
the first argument still holds `fila` from the call `inserirPeca(fila, ...)`
of the iteration before. -/
def alvoPrimeiroFora : Nat → Alvo :=
  fun i => if i = 0 then Alvo.outro (-1) else Alvo.estaFila

/-- Every call `gerarPeca()` of `inicializarFila` happens to reach the queue
being initialised, as the call `gerarPeca(fila)` would. -/
def alvoFila : Nat → Alvo := fun _ => Alvo.estaFila

/-! ## Arithmetic helpers -/

theorem wrapInt_of_ehInt {x : Int} (h : ehInt x) : wrapInt x = x := by
  unfold ehInt at h
  unfold wrapInt
  omega

theorem tmod_capacidade {x : Int} (h : 0 ≤ x) : Int.tmod x CAPACIDADE_FILA = x % 5 := by
  unfold CAPACIDADE_FILA
  exact Int.tmod_eq_emod h (by decide)

/-- Advancing an index that lies in `[0, 5)`: no overflow, and C's `%` agrees
with the mathematical remainder. -/
theorem avancar_indice {i : Int} (h0 : 0 ≤ i) (h5 : i < 5) :
    Int.tmod (wrapInt (i + 1)) CAPACIDADE_FILA = (i + 1) % 5 := by
  rw [wrapInt_of_ehInt (by unfold ehInt; omega), tmod_capacidade (by omega)]

theorem filaCheia_iff (fila : FilaCircular) : filaCheia fila = true ↔ fila.tamanho = 5 := by
  simp [filaCheia, CAPACIDADE_FILA]

theorem filaVazia_iff (fila : FilaCircular) : filaVazia fila = true ↔ fila.tamanho = 0 := by
  simp [filaVazia]

/-! ## The ring invariant -/

theorem Anel.tras_nonneg {fila : FilaCircular} (h : Anel fila) : 0 ≤ fila.tras := by
  have := h.tras_eq
  omega

theorem Anel.tras_lt {fila : FilaCircular} (h : Anel fila) : fila.tras < 5 := by
  have := h.tras_eq
  omega

theorem inserirPeca_cheia {fila : FilaCircular} (h : fila.tamanho = 5) (p : Peca) :
    inserirPeca fila p = fila := by
  simp [inserirPeca, (filaCheia_iff fila).2 h]

theorem inserirPeca_livre {fila : FilaCircular} (h : fila.tamanho ≠ 5) (p : Peca) :
    inserirPeca fila p =
      { fila with
        pecas := gravarPeca fila.pecas fila.tras p
        tras := Int.tmod (wrapInt (fila.tras + 1)) CAPACIDADE_FILA
        tamanho := wrapInt (fila.tamanho + 1) } := by
  have hc : filaCheia fila = false := by
    cases hb : filaCheia fila
    · rfl
    · exact absurd ((filaCheia_iff fila).1 hb) h
  simp [inserirPeca, hc]

theorem removerPeca_vazia {fila : FilaCircular} (h : fila.tamanho = 0) :
    removerPeca fila = (pecaVazia, fila) := by
  simp [removerPeca, (filaVazia_iff fila).2 h]

theorem removerPeca_ocupada {fila : FilaCircular} (h : fila.tamanho ≠ 0) :
    removerPeca fila =
      (lerPeca fila.pecas fila.frente,
        { fila with
          frente := Int.tmod (wrapInt (fila.frente + 1)) CAPACIDADE_FILA
          tamanho := wrapInt (fila.tamanho - 1) }) := by
  have hc : filaVazia fila = false := by
    cases hb : filaVazia fila
    · rfl
    · exact absurd ((filaVazia_iff fila).1 hb) h
  simp [removerPeca, hc]

theorem Anel.inserirPeca {fila : FilaCircular} (h : Anel fila) (p : Peca) :
    Anel (inserirPeca fila p) := by
  by_cases hc : fila.tamanho = 5
  · rw [inserirPeca_cheia hc]
    exact h
  · have h1 := h.tras_nonneg
    have h2 := h.tras_lt
    obtain ⟨a, b, c, d, e⟩ := h
    rw [inserirPeca_livre hc]
    have hw : wrapInt (fila.tamanho + 1) = fila.tamanho + 1 :=
      wrapInt_of_ehInt (by unfold ehInt; omega)
    constructor <;> simp only [avancar_indice h1 h2, hw] <;> omega

theorem Anel.removerPeca {fila : FilaCircular} (h : Anel fila) :
    Anel (removerPeca fila).2 := by
  by_cases hc : fila.tamanho = 0
  · rw [removerPeca_vazia hc]
    exact h
  · obtain ⟨a, b, c, d, e⟩ := h
    rw [removerPeca_ocupada hc]
    have hw : wrapInt (fila.tamanho - 1) = fila.tamanho - 1 :=
      wrapInt_of_ehInt (by unfold ehInt; omega)
    constructor <;> simp only [avancar_indice a b, hw] <;> omega

theorem Anel.gerarPeca {fila : FilaCircular} (h : Anel fila) (r : Nat) :
    Anel (gerarPeca fila r).2 := by
  obtain ⟨a, b, c, d, e⟩ := h
  constructor <;> simp only [Tetris.gerarPeca] <;> assumption

theorem Anel.gerarPecaSemArgumento {fila : FilaCircular} (h : Anel fila) (alvo : Alvo)
    (r : Nat) : Anel (gerarPecaSemArgumento fila alvo r).2 := by
  cases alvo with
  | estaFila => exact h.gerarPeca r
  | outro valor => exact h

theorem Anel.aplicar {fila : FilaCircular} (h : Anel fila) (op : Op) :
    Anel (aplicar fila op) := by
  cases op with
  | inserir p => exact h.inserirPeca p
  | remover => exact h.removerPeca
  | gerar r => exact h.gerarPeca r

theorem Anel.executar {fila : FilaCircular} (h : Anel fila) (ops : List Op) :
    Anel (executar fila ops) := by
  induction ops generalizing fila with
  | nil => exact h
  | cons op resto ih => exact ih (h.aplicar op)

theorem Anel.inicializarLaco (alvo : Nat → Alvo) (r : Nat → Nat) (n i : Nat)
    {fila : FilaCircular} (h : Anel fila) : Anel (inicializarLaco alvo r n i fila) := by
  induction n generalizing i fila with
  | zero => exact h
  | succ n ih =>
    simp only [Tetris.inicializarLaco]
    exact ih (i + 1) ((h.gerarPecaSemArgumento (alvo i) (r i)).inserirPeca _)

theorem Anel.inicializarFila (fila : FilaCircular) (alvo : Nat → Alvo) (r : Nat → Nat) :
    Anel (inicializarFila fila alvo r) := by
  apply Anel.inicializarLaco
  constructor <;> simp

/-! ## Array and display helpers -/

theorem lerPeca_gravarPeca_mesmo (pecas : Fin 5 → Peca) {i : Int} (h0 : 0 ≤ i) (h5 : i < 5)
    (p : Peca) : lerPeca (gravarPeca pecas i p) i = p := by
  simp [lerPeca, gravarPeca, h0, h5]

theorem lerPeca_gravarPeca_outro (pecas : Fin 5 → Peca) {i t : Int} (h : i ≠ t) (p : Peca) :
    lerPeca (gravarPeca pecas t p) i = lerPeca pecas i := by
  unfold lerPeca gravarPeca
  by_cases hi : 0 ≤ i ∧ i < 5
  · by_cases ht : 0 ≤ t ∧ t < 5
    · have hne : i.toNat ≠ t.toNat := by omega
      simp [hi, ht, hne]
    · simp [hi, ht]
  · simp [hi]

theorem snapshot_eq (fila : FilaCircular) :
    snapshot fila = exibirLaco fila.pecas fila.tamanho.toNat fila.frente := by
  unfold snapshot exibirFila
  by_cases h : fila.tamanho = 0
  · simp [(filaVazia_iff fila).2 h, h, exibirLaco]
  · have hc : filaVazia fila = false := by
      cases hb : filaVazia fila
      · rfl
      · exact absurd ((filaVazia_iff fila).1 hb) h
    simp [hc]

/-- Writing at the slot just past the `n` slots walked from `i` appends the
written piece to the walk and leaves the `n` pieces as they were. -/
theorem exibirLaco_gravarPeca (pecas : Fin 5 → Peca) (p : Peca) (n : Nat) :
    ∀ (i t : Int), 0 ≤ i → i < 5 → (n : Int) < 5 → t = (i + n) % 5 →
      exibirLaco (gravarPeca pecas t p) (n + 1) i = exibirLaco pecas n i ++ [p] := by
  induction n with
  | zero =>
    intro i t h0 h5 _ ht
    have hti : t = i := by omega
    subst hti
    simp [exibirLaco, lerPeca_gravarPeca_mesmo pecas h0 h5]
  | succ n ih =>
    intro i t h0 h5 hn ht
    have hne : i ≠ t := by omega
    have hstep := ih ((i + 1) % 5) t (by omega) (by omega) (by omega) (by omega)
    rw [exibirLaco, avancar_indice h0 h5, hstep, lerPeca_gravarPeca_outro pecas hne]
    conv_rhs => rw [exibirLaco, avancar_indice h0 h5]
    rfl

/-- Dequeue on a non-empty queue in terms of the snapshot. -/
theorem removerPeca_snapshot (fila : FilaCircular) (hf0 : 0 ≤ fila.frente)
    (hf5 : fila.frente < 5) (ht1 : 1 ≤ fila.tamanho) (ht5 : fila.tamanho ≤ 5) :
    (snapshot fila).head? = some (removerPeca fila).1 ∧
      snapshot (removerPeca fila).2 = (snapshot fila).tail ∧
      (removerPeca fila).2.tamanho = fila.tamanho - 1 ∧
      (removerPeca fila).2.frente = (fila.frente + 1) % 5 := by
  have hne : fila.tamanho ≠ 0 := by omega
  have hw : wrapInt (fila.tamanho - 1) = fila.tamanho - 1 :=
    wrapInt_of_ehInt (by unfold ehInt; omega)
  obtain ⟨n, hn⟩ : ∃ n : Nat, fila.tamanho.toNat = n + 1 := ⟨fila.tamanho.toNat - 1, by omega⟩
  have hn1 : (fila.tamanho - 1).toNat = n := by omega
  rw [removerPeca_ocupada hne]
  simp only [snapshot_eq, hn, hw, hn1, exibirLaco, avancar_indice hf0 hf5]
  simp

/-- Enqueue on a queue with room in terms of the snapshot. -/
theorem inserirPeca_snapshot (fila : FilaCircular) (p : Peca) (hf0 : 0 ≤ fila.frente)
    (hf5 : fila.frente < 5) (ht0 : 0 ≤ fila.tamanho) (ht5 : fila.tamanho < 5)
    (htras : fila.tras = (fila.frente + fila.tamanho) % 5) :
    snapshot (inserirPeca fila p) = snapshot fila ++ [p] ∧
      (inserirPeca fila p).tamanho = fila.tamanho + 1 ∧
      (inserirPeca fila p).tras = (fila.tras + 1) % 5 ∧
      (inserirPeca fila p).frente = fila.frente := by
  have hne : fila.tamanho ≠ 5 := by omega
  have hw : wrapInt (fila.tamanho + 1) = fila.tamanho + 1 :=
    wrapInt_of_ehInt (by unfold ehInt; omega)
  have hn1 : (fila.tamanho + 1).toNat = fila.tamanho.toNat + 1 := by omega
  have hlaco := exibirLaco_gravarPeca fila.pecas p fila.tamanho.toNat fila.frente fila.tras
    hf0 hf5 (by omega) (by omega)
  rw [inserirPeca_livre hne]
  simp only [snapshot_eq, hw, hn1, hlaco, avancar_indice (i := fila.tras) (by omega) (by omega)]
  simp

theorem inserirPeca_proximo_id (fila : FilaCircular) (p : Peca) :
    (inserirPeca fila p).proximo_id = fila.proximo_id := by
  unfold inserirPeca
  split <;> rfl

theorem removerPeca_proximo_id (fila : FilaCircular) :
    (removerPeca fila).2.proximo_id = fila.proximo_id := by
  unfold removerPeca
  split <;> rfl

theorem gerarPeca_id (fila : FilaCircular) (r : Nat) :
    (gerarPeca fila r).1.id = fila.proximo_id := rfl

theorem gerarPeca_snapshot (fila : FilaCircular) (r : Nat) :
    snapshot (gerarPeca fila r).2 = snapshot fila := rfl

theorem gerarPeca_proximo_id (fila : FilaCircular) (r : Nat)
    (h0 : -2147483648 ≤ fila.proximo_id) (h1 : fila.proximo_id < 2147483647) :
    (gerarPeca fila r).2.proximo_id = fila.proximo_id + 1 := by
  simp only [gerarPeca]
  exact wrapInt_of_ehInt (by unfold ehInt; omega)

/-- Generating a piece from the queue's own counter and inserting it, on a
queue with room: the piece carries the counter value and is appended to the
snapshot. -/
theorem gerar_inserir (fila : FilaCircular) (r : Nat) (h : Anel fila)
    (ht5 : fila.tamanho < 5) :
    snapshotIds (inserirPeca (gerarPeca fila r).2 (gerarPeca fila r).1) =
        snapshotIds fila ++ [fila.proximo_id] ∧
      (inserirPeca (gerarPeca fila r).2 (gerarPeca fila r).1).tamanho = fila.tamanho + 1 ∧
      (inserirPeca (gerarPeca fila r).2 (gerarPeca fila r).1).frente = fila.frente ∧
      (inserirPeca (gerarPeca fila r).2 (gerarPeca fila r).1).proximo_id =
        wrapInt (fila.proximo_id + 1) := by
  have hg := h.gerarPeca r
  have hs := inserirPeca_snapshot (gerarPeca fila r).2 (gerarPeca fila r).1
    hg.frente_nonneg hg.frente_lt hg.tamanho_nonneg ht5 hg.tras_eq
  refine ⟨?_, hs.2.1, hs.2.2.2, ?_⟩
  · simp only [snapshotIds, hs.1, gerarPeca_snapshot, List.map_append, List.map_cons,
      List.map_nil, gerarPeca_id]
  · rw [inserirPeca_proximo_id]
    rfl

/-- One iteration of the filling loop when the call `gerarPeca()` reaches the
queue itself and the counter is below `INT_MAX`. -/
theorem inicializar_iteracao (fila : FilaCircular) (r : Nat) (h : Anel fila)
    (ht5 : fila.tamanho < 5) (hp0 : -2147483648 ≤ fila.proximo_id)
    (hp1 : fila.proximo_id < 2147483647) :
    snapshotIds (inserirPeca (gerarPeca fila r).2 (gerarPeca fila r).1) =
        snapshotIds fila ++ [fila.proximo_id] ∧
      (inserirPeca (gerarPeca fila r).2 (gerarPeca fila r).1).tamanho = fila.tamanho + 1 ∧
      (inserirPeca (gerarPeca fila r).2 (gerarPeca fila r).1).frente = fila.frente ∧
      (inserirPeca (gerarPeca fila r).2 (gerarPeca fila r).1).proximo_id =
        fila.proximo_id + 1 := by
  have hgi := gerar_inserir fila r h ht5
  rw [wrapInt_of_ehInt (by unfold ehInt; omega)] at hgi
  exact hgi

/-- The filling loop when every call `gerarPeca()` reaches the queue itself:
`n` pieces with consecutive ids are appended. -/
theorem inicializarLaco_alvoFila (r : Nat → Nat) (n : Nat) :
    ∀ (i : Nat) (fila : FilaCircular), Anel fila → fila.tamanho + n ≤ 5 →
      -2147483648 ≤ fila.proximo_id → fila.proximo_id + n ≤ 2147483647 →
      snapshotIds (inicializarLaco alvoFila r n i fila) =
          snapshotIds fila ++ (List.range n).map (fun k : Nat => fila.proximo_id + k) ∧
        (inicializarLaco alvoFila r n i fila).tamanho = fila.tamanho + n ∧
        (inicializarLaco alvoFila r n i fila).frente = fila.frente ∧
        (inicializarLaco alvoFila r n i fila).proximo_id = fila.proximo_id + n := by
  induction n with
  | zero =>
    intro i fila _ _ _ _
    simp [inicializarLaco]
  | succ n ih =>
    intro i fila h ht hp0 hp1
    have hit := inicializar_iteracao fila (r i) h (by omega) hp0 (by omega)
    have hanel : Anel (inserirPeca (gerarPeca fila (r i)).2 (gerarPeca fila (r i)).1) :=
      (h.gerarPeca (r i)).inserirPeca _
    have hrec := ih (i + 1) _ hanel (by rw [hit.2.1]; omega) (by rw [hit.2.2.2]; omega)
      (by rw [hit.2.2.2]; omega)
    simp only [inicializarLaco, alvoFila, gerarPecaSemArgumento]
    simp only [alvoFila] at hrec
    rw [hrec.1, hrec.2.1, hrec.2.2.1, hrec.2.2.2, hit.1, hit.2.1, hit.2.2.1, hit.2.2.2]
    refine ⟨?_, by omega, rfl, by omega⟩
    rw [List.range_succ_eq_map]
    simp only [List.map_cons, List.map_map, List.append_assoc, List.singleton_append]
    congr 2
    · simp
    · apply List.map_congr_left
      intro k _
      simp only [Function.comp, Nat.cast_succ]
      omega

/-- What `inicializarFila` would establish if each call `gerarPeca()` reached
the queue being initialised (the behaviour of `gerarPeca(fila)`): indices at
`0`, five pieces, ids `1..5` in order and the counter at `6`. -/
theorem inicializarFila_alvoFila (fila0 : FilaCircular) (r : Nat → Nat) :
    (inicializarFila fila0 alvoFila r).frente = 0 ∧
      (inicializarFila fila0 alvoFila r).tras = 0 ∧
      (inicializarFila fila0 alvoFila r).tamanho = 5 ∧
      (inicializarFila fila0 alvoFila r).proximo_id = 6 ∧
      snapshotIds (inicializarFila fila0 alvoFila r) = [1, 2, 3, 4, 5] := by
  have hanel := Anel.inicializarFila fila0 alvoFila r
  have hreset : Anel { fila0 with frente := 0, tras := 0, tamanho := 0, proximo_id := 1 } := by
    constructor <;> simp
  have h := inicializarLaco_alvoFila r 5 0
    { fila0 with frente := 0, tras := 0, tamanho := 0, proximo_id := 1 } hreset
    (by simp) (by simp) (by simp)
  have htras := hanel.tras_eq
  unfold inicializarFila at htras ⊢
  rw [h.2.1, h.2.2.1] at htras
  refine ⟨h.2.2.1, ?_, ?_, ?_, ?_⟩
  · rw [htras]; rfl
  · rw [h.2.1]; rfl
  · rw [h.2.2.2]; rfl
  · rw [h.1]
    simp [snapshotIds, snapshot, exibirFila, filaVazia]
    decide

/-! ## The id counter along a run -/

theorem aplicar_proximo_id_ge (fila : FilaCircular) (op : Op)
    (h0 : -2147483648 ≤ fila.proximo_id) (h1 : fila.proximo_id + numGerar [op] ≤ 2147483647) :
    (aplicar fila op).proximo_id = fila.proximo_id + numGerar [op] := by
  cases op with
  | inserir p => simp [aplicar, numGerar, inserirPeca_proximo_id]
  | remover => simp [aplicar, numGerar, removerPeca_proximo_id]
  | gerar r =>
    simp only [numGerar] at h1
    simp only [aplicar, numGerar]
    rw [gerarPeca_proximo_id fila r h0 (by omega)]
    simp

theorem numGerar_cons (op : Op) (resto : List Op) :
    numGerar (op :: resto) = numGerar [op] + numGerar resto := by
  cases op <;> simp [numGerar]
  omega

theorem numGerar_append (pre post : List Op) :
    numGerar (pre ++ post) = numGerar pre + numGerar post := by
  induction pre with
  | nil => simp [numGerar]
  | cons op resto ih =>
    rw [List.cons_append, numGerar_cons, ih, numGerar_cons op resto]
    omega

theorem numGerar_replicate_gerar (n r : Nat) :
    numGerar (List.replicate n (Op.gerar r)) = n := by
  induction n with
  | zero => rfl
  | succ n ih => rw [List.replicate_succ, numGerar, ih]

/-- While the counter does not pass `INT_MAX`, a run advances it by the
number of its `gerarPeca` calls. -/
theorem executar_proximo_id (ops : List Op) :
    ∀ fila : FilaCircular, -2147483648 ≤ fila.proximo_id →
      fila.proximo_id + numGerar ops ≤ 2147483647 →
      (executar fila ops).proximo_id = fila.proximo_id + numGerar ops := by
  induction ops with
  | nil =>
    intro fila _ _
    simp [executar, numGerar]
  | cons op resto ih =>
    intro fila h0 h1
    have hc := numGerar_cons op resto
    have hop := aplicar_proximo_id_ge fila op h0 (by omega)
    have hrec := ih (aplicar fila op) (by omega) (by omega)
    show (executar (aplicar fila op) resto).proximo_id = _
    omega

/-- While the counter does not pass `INT_MAX`, the ids a run generates are
strictly increasing and lie between the counter at the start and at the end. -/
theorem idsGerados_crescente (ops : List Op) :
    ∀ fila : FilaCircular, -2147483648 ≤ fila.proximo_id →
      fila.proximo_id + numGerar ops ≤ 2147483647 →
      (idsGerados fila ops).Pairwise (· < ·) ∧
        ∀ x ∈ idsGerados fila ops, fila.proximo_id ≤ x ∧ x < fila.proximo_id + numGerar ops := by
  induction ops with
  | nil =>
    intro fila _ _
    simp [idsGerados]
  | cons op resto ih =>
    intro fila h0 h1
    have hc := numGerar_cons op resto
    have hop := aplicar_proximo_id_ge fila op h0 (by omega)
    have hrec := ih (aplicar fila op) (by omega) (by omega)
    cases op with
    | inserir p =>
      simp only [aplicar, numGerar] at hop hrec
      simp only [idsGerados, numGerar]
      refine ⟨hrec.1, fun x hx => ?_⟩
      have := hrec.2 x hx
      omega
    | remover =>
      simp only [aplicar, numGerar] at hop hrec
      simp only [idsGerados, numGerar]
      refine ⟨hrec.1, fun x hx => ?_⟩
      have := hrec.2 x hx
      omega
    | gerar r =>
      simp only [aplicar, numGerar] at hop hrec
      simp only [idsGerados, numGerar, List.pairwise_cons, List.mem_cons, gerarPeca_id]
      refine ⟨⟨fun x hx => ?_, hrec.1⟩, fun x hx => ?_⟩
      · have := hrec.2 x hx
        omega
      · rcases hx with hx | hx
        · subst hx
          push_cast
          omega
        · have := hrec.2 x hx
          push_cast at this ⊢
          omega

theorem gerarPecaSemArgumento_proximo_id (fila : FilaCircular) (alvo : Alvo) (r : Nat)
    (h0 : -2147483648 ≤ fila.proximo_id) (h1 : fila.proximo_id < 2147483647) :
    fila.proximo_id ≤ (gerarPecaSemArgumento fila alvo r).2.proximo_id ∧
      (gerarPecaSemArgumento fila alvo r).2.proximo_id ≤ fila.proximo_id + 1 := by
  cases alvo with
  | estaFila =>
    simp only [gerarPecaSemArgumento]
    rw [gerarPeca_proximo_id fila r h0 h1]
    omega
  | outro valor =>
    simp only [gerarPecaSemArgumento]
    omega

theorem inicializarLaco_proximo_id (alvo : Nat → Alvo) (r : Nat → Nat) (n : Nat) :
    ∀ (i : Nat) (fila : FilaCircular), -2147483648 ≤ fila.proximo_id →
      fila.proximo_id + n ≤ 2147483647 →
      fila.proximo_id ≤ (inicializarLaco alvo r n i fila).proximo_id ∧
        (inicializarLaco alvo r n i fila).proximo_id ≤ fila.proximo_id + n := by
  induction n with
  | zero =>
    intro i fila _ _
    simp [inicializarLaco]
  | succ n ih =>
    intro i fila h0 h1
    have hg := gerarPecaSemArgumento_proximo_id fila (alvo i) (r i) h0 (by omega)
    have hrec := ih (i + 1)
      (inserirPeca (gerarPecaSemArgumento fila (alvo i) (r i)).2
        (gerarPecaSemArgumento fila (alvo i) (r i)).1)
      (by rw [inserirPeca_proximo_id]; omega)
      (by rw [inserirPeca_proximo_id]; push_cast at h1 ⊢; omega)
    rw [inserirPeca_proximo_id] at hrec
    simp only [inicializarLaco]
    push_cast at h1 ⊢
    omega

/-- After `inicializarFila` the counter lies in `[1, 6]`: it was reset to `1`
and each of the five calls `gerarPeca()` advanced it at most once. -/
theorem inicializarFila_proximo_id (fila0 : FilaCircular) (alvo : Nat → Alvo)
    (r : Nat → Nat) :
    1 ≤ (inicializarFila fila0 alvo r).proximo_id ∧
      (inicializarFila fila0 alvo r).proximo_id ≤ 6 := by
  have h := inicializarLaco_proximo_id alvo r 5 0
    { fila0 with frente := 0, tras := 0, tamanho := 0, proximo_id := 1 } (by simp) (by simp)
  unfold inicializarFila
  simp only [Nat.cast_ofNat] at h
  omega

/-! ## The play action on a full queue -/

theorem wrapInt_succ (x : Int) : wrapInt (wrapInt x + 1) = wrapInt (x + 1) := by
  unfold wrapInt
  omega

theorem jogar_sucesso (fila : FilaCircular) (r : Nat) (hid : (removerPeca fila).1.id ≠ 0) :
    jogar fila r =
      inserirPeca (gerarPeca (removerPeca fila).2 r).2 (gerarPeca (removerPeca fila).2 r).1 := by
  simp [jogar, hid]

theorem jogar_falha (fila : FilaCircular) (r : Nat) (hid : (removerPeca fila).1.id = 0) :
    jogar fila r = (removerPeca fila).2 := by
  simp [jogar, hid]

/-- On a full queue whose front piece has a non-zero id the play action drops
the front piece, appends a piece carrying the counter value and leaves the
queue full. -/
theorem jogar_cheia (fila : FilaCircular) (r : Nat) (h : Anel fila) (ht : fila.tamanho = 5)
    (hid : (removerPeca fila).1.id ≠ 0) :
    snapshotIds (jogar fila r) = (snapshotIds fila).tail ++ [fila.proximo_id] ∧
      (jogar fila r).tamanho = 5 ∧ Anel (jogar fila r) ∧
      (jogar fila r).proximo_id = wrapInt (fila.proximo_id + 1) := by
  have hrem := removerPeca_snapshot fila h.frente_nonneg h.frente_lt (by omega) (by omega)
  have hanel := h.removerPeca
  have hpid := removerPeca_proximo_id fila
  have hit := gerar_inserir (removerPeca fila).2 r hanel (by omega)
  rw [jogar_sucesso fila r hid]
  refine ⟨?_, by omega, (hanel.gerarPeca r).inserirPeca _, by rw [hit.2.2.2, hpid]⟩
  rw [hit.1, hpid]
  simp only [snapshotIds, hrem.2.1, List.map_tail]

/-- The piece `removerPeca` returns from a full queue in step with the counter
carries the 32-bit value of `c`. -/
theorem Cheia.frente_id {c : Int} {fila : FilaCircular} (h : Cheia c fila) :
    (removerPeca fila).1.id = wrapInt c := by
  have hrem := removerPeca_snapshot fila h.anel.frente_nonneg h.anel.frente_lt
    (by have := h.tamanho_eq; omega) (by have := h.tamanho_eq; omega)
  have hhead : (snapshotIds fila).head? = some (removerPeca fila).1.id := by
    simp [snapshotIds, List.head?_map, hrem.1]
  rw [h.ids] at hhead
  simp only [List.head?_cons, Option.some.injEq] at hhead
  exact hhead.symm

/-- A play action on a full queue in step with the counter keeps it full and
in step, provided the id at the front is not `0`. -/
theorem Cheia.apos_jogar {c : Int} {fila : FilaCircular} (h : Cheia c fila) (r : Nat)
    (hc : wrapInt c ≠ 0) : Cheia (c + 1) (jogar fila r) := by
  have hid : (removerPeca fila).1.id ≠ 0 := by rw [h.frente_id]; exact hc
  have hj := jogar_cheia fila r h.anel h.tamanho_eq hid
  refine ⟨hj.2.2.1, hj.2.1, ?_, ?_⟩
  · rw [hj.1, h.ids, h.contador]
    have e1 : c + 1 + 1 = c + 2 := by omega
    have e2 : c + 1 + 2 = c + 3 := by omega
    have e3 : c + 1 + 3 = c + 4 := by omega
    have e4 : c + 1 + 4 = c + 5 := by omega
    simp only [List.tail_cons, List.cons_append, List.nil_append, e1, e2, e3, e4]
  · rw [hj.2.2.2, h.contador, wrapInt_succ]
    have e5 : c + 5 + 1 = c + 1 + 5 := by omega
    rw [e5]

/-- A play action on a full queue whose front piece has id `0` removes the
piece and inserts no replacement. -/
theorem Cheia.apos_jogar_zero {c : Int} {fila : FilaCircular} (h : Cheia c fila) (r : Nat)
    (hc : wrapInt c = 0) : (jogar fila r).tamanho = 4 := by
  have hid : (removerPeca fila).1.id = 0 := by rw [h.frente_id]; exact hc
  have hrem := removerPeca_snapshot fila h.anel.frente_nonneg h.anel.frente_lt
    (by have := h.tamanho_eq; omega) (by have := h.tamanho_eq; omega)
  rw [jogar_falha fila r hid, hrem.2.2.1, h.tamanho_eq]
  rfl

theorem menuPrincipal_cons (fila : FilaCircular) (entrada : Option Int) (r : Nat)
    (resto : List (Option Int × Nat)) :
    menuPrincipal fila ((entrada, r) :: resto) =
      if lerOpcao entrada = 1 then menuPrincipal (jogar fila r) resto
      else if lerOpcao entrada = 0 then fila
      else menuPrincipal fila resto := by
  by_cases h1 : lerOpcao entrada = 1
  · simp [menuPrincipal, menuPasso, h1]
  · by_cases h0 : lerOpcao entrada = 0
    · simp [menuPrincipal, menuPasso, h0]
    · by_cases h2 : lerOpcao entrada = 2 <;> simp [menuPrincipal, menuPasso, h0, h1, h2]

theorem menuPrincipal_jogadasCom_cons (fila : FilaCircular) (x : Nat) (rs : List Nat) :
    menuPrincipal fila (jogadasCom (x :: rs)) = menuPrincipal (jogar fila x) (jogadasCom rs) := by
  simp [jogadasCom, menuPrincipal_cons, lerOpcao]

theorem menuPrincipal_jogadasCom_append (rs : List Nat) :
    ∀ (fila : FilaCircular) (ss : List Nat),
      menuPrincipal fila (jogadasCom (rs ++ ss)) =
        menuPrincipal (menuPrincipal fila (jogadasCom rs)) (jogadasCom ss) := by
  induction rs with
  | nil =>
    intro fila ss
    simp [jogadasCom, menuPrincipal]
  | cons x resto ih =>
    intro fila ss
    rw [List.cons_append, menuPrincipal_jogadasCom_cons, menuPrincipal_jogadasCom_cons, ih]

/-- Consecutive play actions on a full queue in step with the counter: as long
as no id reaching the front is `0`, the queue stays full and in step. -/
theorem Cheia.apos_jogadasCom (rs : List Nat) :
    ∀ (fila : FilaCircular) (c : Int), Cheia c fila →
      (∀ j : Nat, j < rs.length → wrapInt (c + j) ≠ 0) →
      Cheia (c + rs.length) (menuPrincipal fila (jogadasCom rs)) := by
  induction rs with
  | nil =>
    intro fila c h _
    simpa [jogadasCom, menuPrincipal] using h
  | cons x resto ih =>
    intro fila c h hz
    have h0 : wrapInt c ≠ 0 := by simpa using hz 0 (by simp)
    have hrec := ih (jogar fila x) (c + 1) (h.apos_jogar x h0) (fun j hj => by
      have := hz (j + 1) (by simpa using hj)
      have e : c + 1 + (j : Int) = c + ((j + 1 : Nat) : Int) := by push_cast; omega
      rw [e]
      exact this)
    rw [menuPrincipal_jogadasCom_cons]
    have e : c + ((x :: resto).length : Int) = c + 1 + (resto.length : Int) := by
      simp only [List.length_cons]
      push_cast
      omega
    rw [e]
    exact hrec

/-- Any menu input on a full queue in step with the counter: as long as no id
reaching the front is `0`, the queue stays full and in step, the counter
having advanced by the number of play actions carried out. -/
theorem Cheia.apos_menuPrincipal (entradas : List (Option Int × Nat)) :
    ∀ (fila : FilaCircular) (c : Int), Cheia c fila →
      (∀ j : Nat, j < numJogadas entradas → wrapInt (c + j) ≠ 0) →
      ∃ m : Nat, m ≤ numJogadas entradas ∧ Cheia (c + m) (menuPrincipal fila entradas) := by
  induction entradas with
  | nil =>
    intro fila c h _
    exact ⟨0, by simp, by simpa [menuPrincipal] using h⟩
  | cons e resto ih =>
    intro fila c h hz
    obtain ⟨entrada, x⟩ := e
    rw [menuPrincipal_cons]
    by_cases h1 : lerOpcao entrada = 1
    · have hnum : numJogadas ((entrada, x) :: resto) = numJogadas resto + 1 := by
        simp [numJogadas, h1]
      rw [hnum] at hz
      have h0 : wrapInt c ≠ 0 := by simpa using hz 0 (by omega)
      obtain ⟨m, hm, hch⟩ := ih (jogar fila x) (c + 1) (h.apos_jogar x h0) (fun j hj => by
        have := hz (j + 1) (by omega)
        have e : c + 1 + (j : Int) = c + ((j + 1 : Nat) : Int) := by push_cast; omega
        rw [e]
        exact this)
      refine ⟨m + 1, by omega, ?_⟩
      have e : c + ((m + 1 : Nat) : Int) = c + 1 + (m : Int) := by push_cast; omega
      rw [if_pos h1, e]
      exact hch
    · have hnum : numJogadas ((entrada, x) :: resto) = numJogadas resto := by
        simp [numJogadas, h1]
      rw [hnum] at hz
      rw [if_neg h1]
      by_cases h0 : lerOpcao entrada = 0
      · rw [if_pos h0]
        exact ⟨0, by omega, by simpa using h⟩
      · rw [if_neg h0]
        obtain ⟨m, hm, hch⟩ := ih fila c h hz
        exact ⟨m, by omega, hch⟩

theorem numJogadas_append (pre post : List (Option Int × Nat)) :
    numJogadas (pre ++ post) = numJogadas pre + numJogadas post := by
  induction pre with
  | nil => simp [numJogadas]
  | cons e resto ih =>
    obtain ⟨entrada, x⟩ := e
    by_cases h1 : lerOpcao entrada = 1
    · simp [numJogadas, h1, ih]
      omega
    · simp [numJogadas, h1, ih]

/-- When each call `gerarPeca()` of `inicializarFila` reaches the queue, the
initial state is full and in step with the counter at `c = 1`. -/
theorem Cheia.apos_inicializarFila (fila0 : FilaCircular) (r : Nat → Nat) :
    Cheia 1 (inicializarFila fila0 alvoFila r) := by
  have hi := inicializarFila_alvoFila fila0 r
  refine ⟨Anel.inicializarFila fila0 alvoFila r, hi.2.2.1, ?_, ?_⟩
  · rw [hi.2.2.2.2]
    decide
  · rw [hi.2.2.2.1]
    decide

/-! ## The display walk -/

theorem filaVazia_ocupada {fila : FilaCircular} (h : fila.tamanho ≠ 0) :
    filaVazia fila = false := by
  cases hb : filaVazia fila
  · rfl
  · exact absurd ((filaVazia_iff fila).1 hb) h

theorem exibirLaco_eq_map (pecas : Fin 5 → Peca) (n : Nat) :
    ∀ i : Int, exibirLaco pecas n i = (indicesLaco n i).map (lerPeca pecas) := by
  induction n with
  | zero =>
    intro i
    rfl
  | succ n ih =>
    intro i
    simp only [exibirLaco, indicesLaco, List.map_cons, ih]

theorem indicesLaco_validos (n : Nat) :
    ∀ i : Int, 0 ≤ i → i < 5 → ∀ x ∈ indicesLaco n i, 0 ≤ x ∧ x < 5 := by
  induction n with
  | zero =>
    intro i _ _ x hx
    simp [indicesLaco] at hx
  | succ n ih =>
    intro i h0 h5 x hx
    simp only [indicesLaco, List.mem_cons, avancar_indice h0 h5] at hx
    rcases hx with hx | hx
    · omega
    · exact ih ((i + 1) % 5) (by omega) (by omega) x hx

theorem exibirLaco_length (pecas : Fin 5 → Peca) (n : Nat) :
    ∀ i : Int, (exibirLaco pecas n i).length = n := by
  induction n with
  | zero =>
    intro i
    rfl
  | succ n ih =>
    intro i
    simp only [exibirLaco, List.length_cons, ih]

/-- The `k`-th piece of the walk started at `i` is the slot at `(i + k) mod 5`. -/
theorem exibirLaco_getElem? (pecas : Fin 5 → Peca) (n : Nat) :
    ∀ (i : Int) (k : Nat), 0 ≤ i → i < 5 → k < n →
      (exibirLaco pecas n i)[k]? = some (lerPeca pecas ((i + k) % 5)) := by
  induction n with
  | zero =>
    intro i k _ _ hk
    omega
  | succ n ih =>
    intro i k h0 h5 hk
    cases k with
    | zero =>
      have e : (i + ((0 : Nat) : Int)) % 5 = i := by push_cast; omega
      simp only [exibirLaco, List.getElem?_cons_zero, e]
    | succ k =>
      have e : ((i + 1) % 5 + (k : Int)) % 5 = (i + ((k + 1 : Nat) : Int)) % 5 := by
        push_cast
        omega
      simp only [exibirLaco, List.getElem?_cons_succ, avancar_indice h0 h5]
      rw [ih ((i + 1) % 5) k (by omega) (by omega) (by omega), e]

theorem lerPeca_dentro (pecas : Fin 5 → Peca) {i : Int} (h0 : 0 ≤ i) (h5 : i < 5) :
    ∃ j : Fin 5, (j.val : Int) = i ∧ lerPeca pecas i = pecas j := by
  refine ⟨⟨i.toNat, by omega⟩, by simp only []; omega, ?_⟩
  simp [lerPeca, h0, h5]

theorem gravarPeca_dentro (pecas : Fin 5 → Peca) {i : Int} (h0 : 0 ≤ i) (h5 : i < 5)
    (p : Peca) :
    gravarPeca pecas i p = fun j => if j.val = i.toNat then p else pecas j := by
  simp [gravarPeca, h0, h5]

/-! ## The full queue under any resolution of the calls of line 50 -/

theorem gerarPecaSemArgumento_tamanho (fila : FilaCircular) (alvo : Alvo) (r : Nat) :
    (gerarPecaSemArgumento fila alvo r).2.tamanho = fila.tamanho := by
  cases alvo <;> rfl

theorem inicializarLaco_tamanho (alvo : Nat → Alvo) (r : Nat → Nat) (n : Nat) :
    ∀ (i : Nat) (fila : FilaCircular), Anel fila → fila.tamanho + n ≤ 5 →
      (inicializarLaco alvo r n i fila).tamanho = fila.tamanho + n := by
  induction n with
  | zero =>
    intro i fila _ _
    simp [inicializarLaco]
  | succ n ih =>
    intro i fila h ht
    have hg := h.gerarPecaSemArgumento (alvo i) (r i)
    have hgt := gerarPecaSemArgumento_tamanho fila (alvo i) (r i)
    have hins := inserirPeca_snapshot (gerarPecaSemArgumento fila (alvo i) (r i)).2
      (gerarPecaSemArgumento fila (alvo i) (r i)).1 hg.frente_nonneg hg.frente_lt
      hg.tamanho_nonneg (by omega) hg.tras_eq
    have hrec := ih (i + 1) _ (hg.inserirPeca (gerarPecaSemArgumento fila (alvo i) (r i)).1)
      (by rw [hins.2.1, hgt]; push_cast at ht ⊢; omega)
    simp only [inicializarLaco]
    rw [hrec, hins.2.1, hgt]
    push_cast
    omega

/-- Whatever the calls `gerarPeca()` of line 50 reach, `inicializarFila`
leaves five pieces in the queue. -/
theorem inicializarFila_tamanho (fila0 : FilaCircular) (alvo : Nat → Alvo) (r : Nat → Nat) :
    (inicializarFila fila0 alvo r).tamanho = 5 := by
  have hreset : Anel { fila0 with frente := 0, tras := 0, tamanho := 0, proximo_id := 1 } := by
    constructor <;> simp
  have h := inicializarLaco_tamanho alvo r 5 0
    { fila0 with frente := 0, tras := 0, tamanho := 0, proximo_id := 1 } hreset (by simp)
  unfold inicializarFila
  rw [h]
  rfl

theorem snapshotIds_cinco (fila : FilaCircular) (h : fila.tamanho = 5) :
    ∃ a0 a1 a2 a3 a4 : Int, snapshotIds fila = [a0, a1, a2, a3, a4] := by
  rw [snapshotIds, snapshot_eq, h]
  exact ⟨_, _, _, _, _, rfl⟩

/-- After `inicializarFila`, whatever the calls of line 50 reach, a queue
none of whose five pieces has id `0` is full and clear of `0` at the counter
value `inicializarFila` leaves. -/
theorem Plena.de_inicializarFila (fila0 : FilaCircular) (alvo : Nat → Alvo)
    (r : Nat → Nat) (h0 : (0 : Int) ∉ snapshotIds (inicializarFila fila0 alvo r)) :
    Plena (inicializarFila fila0 alvo r).proximo_id (inicializarFila fila0 alvo r) := by
  have hp := inicializarFila_proximo_id fila0 alvo r
  have ht := inicializarFila_tamanho fila0 alvo r
  obtain ⟨a0, a1, a2, a3, a4, hids⟩ := snapshotIds_cinco _ ht
  rw [hids] at h0
  simp only [List.mem_cons, List.mem_singleton, List.not_mem_nil, or_false, not_or] at h0
  refine ⟨Anel.inicializarFila fila0 alvo r, ht, ?_, hp.1, a0, a1, a2, a3, a4, hids, ?_⟩
  · exact (wrapInt_of_ehInt (by unfold ehInt; omega)).symm
  · exact ⟨fun _ h => h0.1 h.symm, fun _ h => h0.2.1 h.symm, fun _ h => h0.2.2.1 h.symm,
      fun _ h => h0.2.2.2.1 h.symm, fun _ h => h0.2.2.2.2 h.symm⟩

/-- The piece `removerPeca` returns from a full queue clear of `0` has a
non-zero id while `c < 2^32 + 5`. -/
theorem Plena.frente_nao_zero {c : Int} {fila : FilaCircular} (h : Plena c fila)
    (hc : c < 4294967301) : (removerPeca fila).1.id ≠ 0 := by
  have hrem := removerPeca_snapshot fila h.anel.frente_nonneg h.anel.frente_lt
    (by have := h.tamanho_eq; omega) (by have := h.tamanho_eq; omega)
  have hhead : (snapshotIds fila).head? = some (removerPeca fila).1.id := by
    simp [snapshotIds, List.head?_map, hrem.1]
  obtain ⟨a0, a1, a2, a3, a4, hids, h0, _⟩ := h.ids
  rw [hids] at hhead
  simp only [List.head?_cons, Option.some.injEq] at hhead
  rw [← hhead]
  exact h0 hc

/-- A play action on a full queue clear of `0` keeps it full and clear of `0`
at the next counter value, while `c < 2^32 + 5`. -/
theorem Plena.passo_jogar {c : Int} {fila : FilaCircular} (h : Plena c fila) (r : Nat)
    (hc : c < 4294967301) : Plena (c + 1) (jogar fila r) := by
  have hj := jogar_cheia fila r h.anel h.tamanho_eq (h.frente_nao_zero hc)
  have hpos := h.positivo
  obtain ⟨a0, a1, a2, a3, a4, hids, _, h1, h2, h3, h4⟩ := h.ids
  refine ⟨hj.2.2.1, hj.2.1, ?_, by omega, a1, a2, a3, a4, wrapInt c, ?_, ?_⟩
  · rw [hj.2.2.2, h.contador, wrapInt_succ]
  · rw [hj.1, hids, h.contador]
    rfl
  · refine ⟨fun hlt => h1 (by omega), fun hlt => h2 (by omega), fun hlt => h3 (by omega),
      fun hlt => h4 (by omega), fun hlt => ?_⟩
    unfold wrapInt
    omega

/-- Any menu input on a full queue clear of `0`: while the counter plus the
number of selections of option 1 does not pass `2^32 + 5`, every play action
finds a non-zero id at the front and the queue stays full. -/
theorem Plena.passo_menuPrincipal (entradas : List (Option Int × Nat)) :
    ∀ (fila : FilaCircular) (c : Int), Plena c fila →
      c + numJogadas entradas ≤ 4294967301 →
      ∃ m : Nat, m ≤ numJogadas entradas ∧ Plena (c + m) (menuPrincipal fila entradas) := by
  induction entradas with
  | nil =>
    intro fila c h _
    exact ⟨0, by simp, by simpa [menuPrincipal] using h⟩
  | cons e resto ih =>
    intro fila c h hlim
    obtain ⟨entrada, x⟩ := e
    rw [menuPrincipal_cons]
    by_cases h1 : lerOpcao entrada = 1
    · have hnum : numJogadas ((entrada, x) :: resto) = numJogadas resto + 1 := by
        simp [numJogadas, h1]
      rw [hnum] at hlim
      push_cast at hlim
      obtain ⟨m, hm, hch⟩ := ih (jogar fila x) (c + 1) (h.passo_jogar x (by omega)) (by omega)
      refine ⟨m + 1, by omega, ?_⟩
      have e : c + ((m + 1 : Nat) : Int) = c + 1 + (m : Int) := by push_cast; omega
      rw [if_pos h1, e]
      exact hch
    · have hnum : numJogadas ((entrada, x) :: resto) = numJogadas resto := by
        simp [numJogadas, h1]
      rw [hnum] at hlim
      rw [if_neg h1]
      by_cases h0 : lerOpcao entrada = 0
      · rw [if_pos h0]
        exact ⟨0, by omega, by simpa using h⟩
      · rw [if_neg h0]
        obtain ⟨m, hm, hch⟩ := ih fila c h hlim
        exact ⟨m, by omega, hch⟩

/-- With the first call `gerarPeca()` reading `-1` outside the queue and the
other four reaching the queue, the first play action removes the piece with
id `-1` and leaves the ids `1 .. 5` with the counter at `6`; after
`4294967295` more play actions the queue is full and in step with the
counter at `c = 2^32`, whose 32-bit value is `0`. -/
theorem cheia_apos_primeiroFora :
    Cheia 4294967296
      (menuPrincipal (inicializarFila filaZerada alvoPrimeiroFora (fun _ => 0))
        (jogadasCom (0 :: List.replicate 4294967295 0))) := by
  have hanel := Anel.inicializarFila filaZerada alvoPrimeiroFora (fun _ => 0)
  have ht := inicializarFila_tamanho filaZerada alvoPrimeiroFora (fun _ => 0)
  have hj := jogar_cheia (inicializarFila filaZerada alvoPrimeiroFora (fun _ => 0)) 0 hanel ht
    (by decide)
  have hids : snapshotIds (inicializarFila filaZerada alvoPrimeiroFora (fun _ => 0)) =
      [-1, 1, 2, 3, 4] := by decide
  have hpid : (inicializarFila filaZerada alvoPrimeiroFora (fun _ => 0)).proximo_id = 5 := by
    decide
  have h1 : Cheia 1 (jogar (inicializarFila filaZerada alvoPrimeiroFora (fun _ => 0)) 0) := by
    refine ⟨hj.2.2.1, hj.2.1, ?_, ?_⟩
    · rw [hj.1, hids, hpid]
      decide
    · rw [hj.2.2.2, hpid]
      decide
  have hlen : (List.replicate 4294967295 (0 : Nat)).length = 4294967295 :=
    List.length_replicate _ _
  have h := Cheia.apos_jogadasCom (List.replicate 4294967295 0) _ 1 h1 (fun j hj => by
    rw [hlen] at hj
    unfold wrapInt
    omega)
  rw [hlen] at h
  rw [menuPrincipal_jogadasCom_cons]
  exact h

/-! ## Claims -/

/-- C1: in every state reached from `inicializarFila` by a finite sequence of
`inserirPeca`, `removerPeca` and `gerarPeca` calls (the calls that hit the
full or empty branch included), `0 ≤ tamanho ≤ 5` and
`tras = (frente + tamanho) mod 5`. -/
theorem c1_reachable_ring_invariant (fila0 : FilaCircular) (alvo : Nat → Alvo)
    (r : Nat → Nat) (ops : List Op) :
    0 ≤ (executar (inicializarFila fila0 alvo r) ops).tamanho ∧
      (executar (inicializarFila fila0 alvo r) ops).tamanho ≤ 5 ∧
      (executar (inicializarFila fila0 alvo r) ops).tras =
        ((executar (inicializarFila fila0 alvo r) ops).frente +
          (executar (inicializarFila fila0 alvo r) ops).tamanho) % 5 := by
  have h := (Anel.inicializarFila fila0 alvo r).executar ops
  exact ⟨h.tamanho_nonneg, h.tamanho_le, h.tras_eq⟩

/-- C2: FIFO dequeue.  In a state with `0 ≤ frente < 5` and
`1 ≤ tamanho ≤ 5`, `removerPeca` returns the first piece of the snapshot, the
snapshot of the new state is the old snapshot without its first piece,
`tamanho` drops by one and `frente` becomes `(frente + 1) mod 5`. -/
theorem c2_fifo_dequeue (fila : FilaCircular) (hf0 : 0 ≤ fila.frente)
    (hf5 : fila.frente < 5) (ht1 : 1 ≤ fila.tamanho) (ht5 : fila.tamanho ≤ 5) :
    (snapshot fila).head? = some (removerPeca fila).1 ∧
      snapshot (removerPeca fila).2 = (snapshot fila).tail ∧
      (removerPeca fila).2.tamanho = fila.tamanho - 1 ∧
      (removerPeca fila).2.frente = (fila.frente + 1) % 5 :=
  removerPeca_snapshot fila hf0 hf5 ht1 ht5

/-- C3: FIFO enqueue.  In a state satisfying the ring invariant with
`tamanho < 5`, the snapshot after `inserirPeca p` is the old snapshot with `p`
appended, `tamanho` grows by one and `tras` becomes `(tras + 1) mod 5`. -/
theorem c3_fifo_enqueue (fila : FilaCircular) (p : Peca) (hf0 : 0 ≤ fila.frente)
    (hf5 : fila.frente < 5) (ht0 : 0 ≤ fila.tamanho) (ht5 : fila.tamanho < 5)
    (htras : fila.tras = (fila.frente + fila.tamanho) % 5) :
    snapshot (inserirPeca fila p) = snapshot fila ++ [p] ∧
      (inserirPeca fila p).tamanho = fila.tamanho + 1 ∧
      (inserirPeca fila p).tras = (fila.tras + 1) % 5 ∧
      (inserirPeca fila p).frente = fila.frente :=
  inserirPeca_snapshot fila p hf0 hf5 ht0 ht5 htras

/-- C4: on a full queue (`tamanho = 5`) `inserirPeca` takes the full-queue
branch and returns the state it was given: `frente`, `tras`, `tamanho`,
`proximo_id` and the five slots are unchanged. -/
theorem c4_enqueue_full_noop (fila : FilaCircular) (p : Peca) (h : fila.tamanho = 5) :
    filaCheia fila = true ∧ inserirPeca fila p = fila ∧
      (∀ i : Fin 5, (inserirPeca fila p).pecas i = fila.pecas i) ∧
      lerPeca (inserirPeca fila p).pecas fila.tras = lerPeca fila.pecas fila.tras := by
  have heq := inserirPeca_cheia h p
  refine ⟨(filaCheia_iff fila).2 h, heq, ?_, ?_⟩
  · intro i
    rw [heq]
  · rw [heq]

/-- C5: on an empty queue (`tamanho = 0`) `removerPeca` returns the piece with
id `0` and the empty name and returns the state it was given. -/
theorem c5_dequeue_empty_noop (fila : FilaCircular) (h : fila.tamanho = 0) :
    filaVazia fila = true ∧ (removerPeca fila).1.id = 0 ∧ (removerPeca fila).1.nome = "" ∧
      (removerPeca fila).2 = fila := by
  rw [removerPeca_vazia h]
  exact ⟨(filaVazia_iff fila).2 h, rfl, rfl, rfl⟩

/-- C10: round trip on an empty queue.  With `tamanho = 0`, `tras = frente`
and `0 ≤ frente < 5`, `inserirPeca p` followed by `removerPeca` returns `p`
and leaves the queue empty with `tras = frente`. -/
theorem c10_round_trip_empty (fila : FilaCircular) (p : Peca) (ht : fila.tamanho = 0)
    (htras : fila.tras = fila.frente) (hf0 : 0 ≤ fila.frente) (hf5 : fila.frente < 5) :
    (removerPeca (inserirPeca fila p)).1 = p ∧
      (removerPeca (inserirPeca fila p)).2.tamanho = 0 ∧
      (removerPeca (inserirPeca fila p)).2.tras = (removerPeca (inserirPeca fila p)).2.frente := by
  have hne : fila.tamanho ≠ 5 := by omega
  have h1 : wrapInt (fila.tamanho + 1) = 1 := by rw [ht]; rfl
  rw [inserirPeca_livre hne]
  rw [removerPeca_ocupada (by simp only [h1]; decide)]
  simp only [h1, htras, lerPeca_gravarPeca_mesmo fila.pecas hf0 hf5]
  exact ⟨trivial, rfl, trivial⟩


/-- Witness of C2 on `filaExemplo`, a queue of three pieces wrapping around. -/
theorem c2_fifo_dequeue_witness :
    (0 ≤ filaExemplo.frente ∧ filaExemplo.frente < 5 ∧ 1 ≤ filaExemplo.tamanho ∧
        filaExemplo.tamanho ≤ 5) ∧
      ((snapshot filaExemplo).head? = some (removerPeca filaExemplo).1 ∧
        snapshot (removerPeca filaExemplo).2 = (snapshot filaExemplo).tail ∧
        (removerPeca filaExemplo).2.tamanho = filaExemplo.tamanho - 1 ∧
        (removerPeca filaExemplo).2.frente = (filaExemplo.frente + 1) % 5) :=
  ⟨by decide, c2_fifo_dequeue filaExemplo (by decide) (by decide) (by decide) (by decide)⟩

/-- Witness of C3 on `filaExemplo` and a piece `Z #77`. -/
theorem c3_fifo_enqueue_witness :
    (0 ≤ filaExemplo.frente ∧ filaExemplo.frente < 5 ∧ 0 ≤ filaExemplo.tamanho ∧
        filaExemplo.tamanho < 5 ∧
        filaExemplo.tras = (filaExemplo.frente + filaExemplo.tamanho) % 5) ∧
      (snapshot (inserirPeca filaExemplo ⟨77, "Z"⟩) = snapshot filaExemplo ++ [⟨77, "Z"⟩] ∧
        (inserirPeca filaExemplo ⟨77, "Z"⟩).tamanho = filaExemplo.tamanho + 1 ∧
        (inserirPeca filaExemplo ⟨77, "Z"⟩).tras = (filaExemplo.tras + 1) % 5 ∧
        (inserirPeca filaExemplo ⟨77, "Z"⟩).frente = filaExemplo.frente) :=
  ⟨by decide,
    c3_fifo_enqueue filaExemplo ⟨77, "Z"⟩ (by decide) (by decide) (by decide) (by decide)
      (by decide)⟩

/-- Witness of C4 on `filaCheiaExemplo` and a piece `Z #77`. -/
theorem c4_enqueue_full_noop_witness :
    filaCheiaExemplo.tamanho = 5 ∧
      (filaCheia filaCheiaExemplo = true ∧
        inserirPeca filaCheiaExemplo ⟨77, "Z"⟩ = filaCheiaExemplo ∧
        (∀ i : Fin 5, (inserirPeca filaCheiaExemplo ⟨77, "Z"⟩).pecas i = filaCheiaExemplo.pecas i) ∧
        lerPeca (inserirPeca filaCheiaExemplo ⟨77, "Z"⟩).pecas filaCheiaExemplo.tras =
          lerPeca filaCheiaExemplo.pecas filaCheiaExemplo.tras) :=
  ⟨by decide, c4_enqueue_full_noop filaCheiaExemplo ⟨77, "Z"⟩ (by decide)⟩

/-- Witness of C5 on `filaVaziaExemplo`. -/
theorem c5_dequeue_empty_noop_witness :
    filaVaziaExemplo.tamanho = 0 ∧
      (filaVazia filaVaziaExemplo = true ∧ (removerPeca filaVaziaExemplo).1.id = 0 ∧
        (removerPeca filaVaziaExemplo).1.nome = "" ∧
        (removerPeca filaVaziaExemplo).2 = filaVaziaExemplo) :=
  ⟨by decide, c5_dequeue_empty_noop filaVaziaExemplo (by decide)⟩

/-- Witness of C10 on `filaVaziaExemplo` and a piece `Z #77`. -/
theorem c10_round_trip_empty_witness :
    (filaVaziaExemplo.tamanho = 0 ∧ filaVaziaExemplo.tras = filaVaziaExemplo.frente ∧
        0 ≤ filaVaziaExemplo.frente ∧ filaVaziaExemplo.frente < 5) ∧
      ((removerPeca (inserirPeca filaVaziaExemplo ⟨77, "Z"⟩)).1 = ⟨77, "Z"⟩ ∧
        (removerPeca (inserirPeca filaVaziaExemplo ⟨77, "Z"⟩)).2.tamanho = 0 ∧
        (removerPeca (inserirPeca filaVaziaExemplo ⟨77, "Z"⟩)).2.tras =
          (removerPeca (inserirPeca filaVaziaExemplo ⟨77, "Z"⟩)).2.frente) :=
  ⟨by decide,
    c10_round_trip_empty filaVaziaExemplo ⟨77, "Z"⟩ (by decide) (by decide) (by decide)
      (by decide)⟩

/-- C6: `inicializarFila` as written calls `gerarPeca()` without the queue.
When the five calls reach storage outside the queue that reads `100 .. 104`,
the queue ends with `frente = 0`, `tras = 0`, `tamanho = 5`, but the snapshot
ids are `100 .. 104` instead of `1 .. 5` and `proximo_id` is `1` instead of
`6`. -/
theorem c6_inicializarFila_sem_argumento :
    (inicializarFila filaZerada alvoFora (fun _ => 0)).frente = 0 ∧
      (inicializarFila filaZerada alvoFora (fun _ => 0)).tras = 0 ∧
      (inicializarFila filaZerada alvoFora (fun _ => 0)).tamanho = 5 ∧
      snapshotIds (inicializarFila filaZerada alvoFora (fun _ => 0)) =
        [100, 101, 102, 103, 104] ∧
      (inicializarFila filaZerada alvoFora (fun _ => 0)).proximo_id = 1 := by
  decide

/-- C7, as stated, fails: after `inicializarFila` (here with every call
reaching the queue, so the counter is `6`) and `2147483641` calls of
`gerarPeca` the counter is `INT_MAX`; the next call returns the id
`2147483647` and leaves `proximo_id = -2147483648`, which is not `id + 1`, and
the call after it returns an id below the previous one. -/
theorem c7_counter_wraps :
    (executar (inicializarFila filaZerada alvoFila (fun _ => 0))
        (List.replicate 2147483641 (Op.gerar 0))).proximo_id = 2147483647 ∧
      (gerarPeca (executar (inicializarFila filaZerada alvoFila (fun _ => 0))
        (List.replicate 2147483641 (Op.gerar 0))) 0).1.id = 2147483647 ∧
      (gerarPeca (executar (inicializarFila filaZerada alvoFila (fun _ => 0))
        (List.replicate 2147483641 (Op.gerar 0))) 0).2.proximo_id = -2147483648 ∧
      (gerarPeca (executar (inicializarFila filaZerada alvoFila (fun _ => 0))
        (List.replicate 2147483641 (Op.gerar 0))) 0).2.proximo_id ≠
        (gerarPeca (executar (inicializarFila filaZerada alvoFila (fun _ => 0))
          (List.replicate 2147483641 (Op.gerar 0))) 0).1.id + 1 ∧
      (gerarPeca (gerarPeca (executar (inicializarFila filaZerada alvoFila (fun _ => 0))
        (List.replicate 2147483641 (Op.gerar 0))) 0).2 0).1.id <
        (gerarPeca (executar (inicializarFila filaZerada alvoFila (fun _ => 0))
          (List.replicate 2147483641 (Op.gerar 0))) 0).1.id := by
  have hi := (inicializarFila_alvoFila filaZerada (fun _ => 0)).2.2.2.1
  have hn := numGerar_replicate_gerar 2147483641 0
  have hp := executar_proximo_id (List.replicate 2147483641 (Op.gerar 0))
    (inicializarFila filaZerada alvoFila (fun _ => 0)) (by rw [hi]; decide)
    (by rw [hi, hn]; decide)
  rw [hi, hn] at hp
  have hp2 : (executar (inicializarFila filaZerada alvoFila (fun _ => 0))
      (List.replicate 2147483641 (Op.gerar 0))).proximo_id = 2147483647 := by
    rw [hp]; decide
  simp only [gerarPeca, hp2]
  decide

/-- C7, amended: in a run of `inserirPeca`, `removerPeca` and `gerarPeca`
calls after `inicializarFila` with at most `2147483641` calls of `gerarPeca`,
each `gerarPeca` call returns `id = proximo_id` and leaves
`proximo_id = id + 1`, the ids returned are strictly increasing (hence
pairwise distinct), and `inserirPeca` and `removerPeca` never change
`proximo_id`. -/
theorem c7_ids_increasing_bounded (fila0 : FilaCircular) (alvo : Nat → Alvo)
    (r : Nat → Nat) (ops : List Op) (hn : numGerar ops ≤ 2147483641) :
    (∀ (pre : List Op) (r1 : Nat) (post : List Op), ops = pre ++ Op.gerar r1 :: post →
        (gerarPeca (executar (inicializarFila fila0 alvo r) pre) r1).1.id =
            (executar (inicializarFila fila0 alvo r) pre).proximo_id ∧
          (gerarPeca (executar (inicializarFila fila0 alvo r) pre) r1).2.proximo_id =
            (gerarPeca (executar (inicializarFila fila0 alvo r) pre) r1).1.id + 1) ∧
      (idsGerados (inicializarFila fila0 alvo r) ops).Pairwise (· < ·) ∧
      (idsGerados (inicializarFila fila0 alvo r) ops).Nodup ∧
      (∀ (fila : FilaCircular) (p : Peca), (inserirPeca fila p).proximo_id = fila.proximo_id) ∧
      (∀ fila : FilaCircular, (removerPeca fila).2.proximo_id = fila.proximo_id) := by
  have hb := inicializarFila_proximo_id fila0 alvo r
  have hcres := idsGerados_crescente ops (inicializarFila fila0 alvo r) (by omega) (by omega)
  refine ⟨?_, hcres.1, hcres.1.imp (fun h => ne_of_lt h), inserirPeca_proximo_id,
    removerPeca_proximo_id⟩
  intro pre r1 post heq
  have hcount : numGerar ops = numGerar pre + (numGerar [Op.gerar r1] + numGerar post) := by
    rw [heq, numGerar_append, numGerar_cons]
  have hone : numGerar [Op.gerar r1] = 1 := rfl
  have hpre := executar_proximo_id pre (inicializarFila fila0 alvo r) (by omega) (by omega)
  refine ⟨rfl, ?_⟩
  rw [gerarPeca_id]
  exact gerarPeca_proximo_id _ r1 (by omega) (by omega)

/-- Witness of C7 (amended) on a run with two `gerarPeca` calls after an
initialisation of `filaZerada`. -/
theorem c7_ids_increasing_bounded_witness :
    numGerar [Op.gerar 3, Op.remover, Op.inserir ⟨9, "I"⟩, Op.gerar 4] ≤ 2147483641 ∧
      (idsGerados (inicializarFila filaZerada alvoFora (fun _ => 0))
        [Op.gerar 3, Op.remover, Op.inserir ⟨9, "I"⟩, Op.gerar 4]).Pairwise (· < ·) :=
  ⟨by decide,
    (c7_ids_increasing_bounded filaZerada alvoFora (fun _ => 0)
      [Op.gerar 3, Op.remover, Op.inserir ⟨9, "I"⟩, Op.gerar 4] (by decide)).2.1⟩

/-- C12: for every queue state and every value `r` of `rand()`, the index
`r mod 7` is a valid index of `tipos`, the name of the piece `gerarPeca`
returns is one of `I, O, T, L, J, Z, S`, each of the seven names is returned
for some `r`, and `gerarPeca` changes no field other than `proximo_id`. -/
theorem c12_gerarPeca_kind (fila : FilaCircular) (r : Nat) :
    r % tipos.length < tipos.length ∧
      (gerarPeca fila r).1.nome ∈ ["I", "O", "T", "L", "J", "Z", "S"] ∧
      (∀ t ∈ ["I", "O", "T", "L", "J", "Z", "S"], ∃ r1 : Nat, (gerarPeca fila r1).1.nome = t) ∧
      (gerarPeca fila r).2.pecas = fila.pecas ∧
      (gerarPeca fila r).2.frente = fila.frente ∧
      (gerarPeca fila r).2.tras = fila.tras ∧
      (gerarPeca fila r).2.tamanho = fila.tamanho := by
  have hlt : r % 7 < 7 := Nat.mod_lt r (by decide)
  refine ⟨hlt, ?_, ?_, rfl, rfl, rfl, rfl⟩
  · have hnome : (gerarPeca fila r).1.nome = tipos.getD (r % 7) "" := rfl
    rw [hnome]
    generalize r % 7 = k at hlt
    interval_cases k <;> simp [tipos]
  · intro t ht
    simp only [List.mem_cons, List.mem_singleton, List.not_mem_nil, or_false] at ht
    rcases ht with h | h | h | h | h | h | h
    · exact ⟨0, by rw [h]; rfl⟩
    · exact ⟨1, by rw [h]; rfl⟩
    · exact ⟨2, by rw [h]; rfl⟩
    · exact ⟨3, by rw [h]; rfl⟩
    · exact ⟨4, by rw [h]; rfl⟩
    · exact ⟨5, by rw [h]; rfl⟩
    · exact ⟨6, by rw [h]; rfl⟩

/-- C16: in a state satisfying the ring invariant, `tras = frente` holds
exactly when `tamanho` is `0` or `5`; and when the queue is full, the state
with the same `frente` and `tras` and `tamanho = 0` also satisfies the ring
invariant, while `filaCheia` and `filaVazia` answer differently on the two. -/
theorem c16_full_and_empty_share_indices (fila : FilaCircular) (ht0 : 0 ≤ fila.tamanho)
    (ht5 : fila.tamanho ≤ 5) (hf0 : 0 ≤ fila.frente) (hf5 : fila.frente < 5)
    (htras : fila.tras = (fila.frente + fila.tamanho) % 5) :
    (fila.tras = fila.frente ↔ fila.tamanho = 0 ∨ fila.tamanho = 5) ∧
      (fila.tamanho = 5 →
        Anel { fila with tamanho := 0 } ∧
          filaCheia fila = true ∧ filaCheia { fila with tamanho := 0 } = false ∧
          filaVazia fila = false ∧ filaVazia { fila with tamanho := 0 } = true) := by
  refine ⟨by omega, fun h5 => ⟨?_, ?_, ?_, ?_, ?_⟩⟩
  · constructor <;> simp only <;> omega
  · simp [filaCheia, CAPACIDADE_FILA, h5]
  · simp [filaCheia, CAPACIDADE_FILA]
  · simp [filaVazia, h5]
  · simp [filaVazia]

/-- Witness of C16 on `filaCheiaExemplo`, a full queue with both indices at 2. -/
theorem c16_full_and_empty_share_indices_witness :
    (0 ≤ filaCheiaExemplo.tamanho ∧ filaCheiaExemplo.tamanho ≤ 5 ∧
        0 ≤ filaCheiaExemplo.frente ∧ filaCheiaExemplo.frente < 5 ∧
        filaCheiaExemplo.tras = (filaCheiaExemplo.frente + filaCheiaExemplo.tamanho) % 5) ∧
      (filaCheiaExemplo.tras = filaCheiaExemplo.frente ↔
        filaCheiaExemplo.tamanho = 0 ∨ filaCheiaExemplo.tamanho = 5) :=
  ⟨by decide,
    (c16_full_and_empty_share_indices filaCheiaExemplo (by decide) (by decide) (by decide)
      (by decide) (by decide)).1⟩

/-- C18: on an empty queue (`tamanho = 0`) the play action returns the state
it was given: nothing is removed, generated or inserted and `proximo_id`
keeps its value. -/
theorem c18_play_on_empty (fila : FilaCircular) (r : Nat) (h : fila.tamanho = 0) :
    jogar fila r = fila ∧ (menuPasso fila (some 1) r).1 = fila ∧
      (removerPeca fila).2 = fila ∧ (jogar fila r).proximo_id = fila.proximo_id := by
  have hrem := removerPeca_vazia h
  have hj : jogar fila r = fila := by
    rw [jogar_falha fila r (by rw [hrem]; rfl), hrem]
  refine ⟨hj, ?_, by rw [hrem], by rw [hj]⟩
  simp [menuPasso, lerOpcao, hj]

/-- Witness of C18 on `filaVaziaExemplo`. -/
theorem c18_play_on_empty_witness :
    filaVaziaExemplo.tamanho = 0 ∧ jogar filaVaziaExemplo 3 = filaVaziaExemplo :=
  ⟨by decide, (c18_play_on_empty filaVaziaExemplo 3 (by decide)).1⟩

/-- C19: in a state satisfying the ring invariant with `tamanho ≥ 1`, the
play action leaves `tamanho` as it was exactly when the piece at the front
has a non-zero id; when that id is `0` the piece is removed all the same
(`frente` advances, `tamanho` drops by one) and nothing is generated or
inserted: `proximo_id`, `tras` and the slots keep their values. -/
theorem c19_play_keeps_size_iff_front_id_nonzero (fila : FilaCircular) (r : Nat)
    (hf0 : 0 ≤ fila.frente) (hf5 : fila.frente < 5) (ht1 : 1 ≤ fila.tamanho)
    (ht5 : fila.tamanho ≤ 5) (htras : fila.tras = (fila.frente + fila.tamanho) % 5) :
    ((jogar fila r).tamanho = fila.tamanho ↔ (lerPeca fila.pecas fila.frente).id ≠ 0) ∧
      ((lerPeca fila.pecas fila.frente).id = 0 →
        (jogar fila r).frente = (fila.frente + 1) % 5 ∧
          (jogar fila r).tamanho = fila.tamanho - 1 ∧
          (jogar fila r).proximo_id = fila.proximo_id ∧
          (jogar fila r).tras = fila.tras ∧
          (jogar fila r).pecas = fila.pecas) := by
  have hanel : Anel fila := ⟨hf0, hf5, by omega, ht5, htras⟩
  have hne : fila.tamanho ≠ 0 := by omega
  have hrem := removerPeca_snapshot fila hf0 hf5 ht1 ht5
  have hfront : (removerPeca fila).1 = lerPeca fila.pecas fila.frente := by
    rw [removerPeca_ocupada hne]
  have hzero : (lerPeca fila.pecas fila.frente).id = 0 →
      jogar fila r = (removerPeca fila).2 := fun hz =>
    jogar_falha fila r (by rw [hfront]; exact hz)
  refine ⟨⟨fun hkeep hz => ?_, fun hnz => ?_⟩, fun hz => ?_⟩
  · rw [hzero hz, hrem.2.2.1] at hkeep
    omega
  · have hgi := gerar_inserir (removerPeca fila).2 r hanel.removerPeca (by omega)
    rw [jogar_sucesso fila r (by rw [hfront]; exact hnz), hgi.2.1, hrem.2.2.1]
    omega
  · rw [hzero hz]
    refine ⟨hrem.2.2.2, hrem.2.2.1, removerPeca_proximo_id fila, ?_, ?_⟩
    · rw [removerPeca_ocupada hne]
    · rw [removerPeca_ocupada hne]

/-- Witness of C19 on `filaExemplo`, whose front piece has id `13`. -/
theorem c19_play_keeps_size_iff_front_id_nonzero_witness :
    (0 ≤ filaExemplo.frente ∧ filaExemplo.frente < 5 ∧ 1 ≤ filaExemplo.tamanho ∧
        filaExemplo.tamanho ≤ 5 ∧
        filaExemplo.tras = (filaExemplo.frente + filaExemplo.tamanho) % 5) ∧
      ((jogar filaExemplo 2).tamanho = filaExemplo.tamanho ↔
        (lerPeca filaExemplo.pecas filaExemplo.frente).id ≠ 0) :=
  ⟨by decide,
    (c19_play_keeps_size_iff_front_id_nonzero filaExemplo 2 (by decide) (by decide)
      (by decide) (by decide) (by decide)).1⟩

/-- C14: in every state reached from `inicializarFila` by a finite sequence
of `inserirPeca`, `removerPeca` and `gerarPeca` calls, `frente` and `tras`
lie in `[0, 5)`; so do all indices at which `exibirFila` reads `pecas`; and
the read at `frente` of `removerPeca`, the reads of the display walk and the
write at `tras` of `inserirPeca` take the in-bounds branch of `lerPeca` and
`gravarPeca`. -/
theorem c14_indices_in_bounds (fila0 : FilaCircular) (alvo : Nat → Alvo) (r : Nat → Nat)
    (ops : List Op) :
    (0 ≤ (executar (inicializarFila fila0 alvo r) ops).frente ∧
        (executar (inicializarFila fila0 alvo r) ops).frente < 5) ∧
      (0 ≤ (executar (inicializarFila fila0 alvo r) ops).tras ∧
        (executar (inicializarFila fila0 alvo r) ops).tras < 5) ∧
      (∀ i ∈ acessosExibir (executar (inicializarFila fila0 alvo r) ops), 0 ≤ i ∧ i < 5) ∧
      (∀ i ∈ acessosExibir (executar (inicializarFila fila0 alvo r) ops),
        ∃ j : Fin 5, (j.val : Int) = i ∧
          lerPeca (executar (inicializarFila fila0 alvo r) ops).pecas i =
            (executar (inicializarFila fila0 alvo r) ops).pecas j) ∧
      (∃ j : Fin 5, (j.val : Int) = (executar (inicializarFila fila0 alvo r) ops).frente ∧
        lerPeca (executar (inicializarFila fila0 alvo r) ops).pecas
            (executar (inicializarFila fila0 alvo r) ops).frente =
          (executar (inicializarFila fila0 alvo r) ops).pecas j) ∧
      (∀ p : Peca,
        gravarPeca (executar (inicializarFila fila0 alvo r) ops).pecas
            (executar (inicializarFila fila0 alvo r) ops).tras p =
          fun j => if j.val = (executar (inicializarFila fila0 alvo r) ops).tras.toNat then p
            else (executar (inicializarFila fila0 alvo r) ops).pecas j) := by
  have h := (Anel.inicializarFila fila0 alvo r).executar ops
  have hacc : ∀ i ∈ acessosExibir (executar (inicializarFila fila0 alvo r) ops),
      0 ≤ i ∧ i < 5 := by
    intro i hi
    unfold acessosExibir at hi
    split at hi
    · simp at hi
    · rcases List.mem_append.1 hi with hi | hi
      · exact indicesLaco_validos _ _ h.frente_nonneg h.frente_lt i hi
      · rw [List.mem_singleton] at hi
        rw [hi]
        exact ⟨h.frente_nonneg, h.frente_lt⟩
  refine ⟨⟨h.frente_nonneg, h.frente_lt⟩, ⟨h.tras_nonneg, h.tras_lt⟩, hacc, ?_, ?_, ?_⟩
  · intro i hi
    exact lerPeca_dentro _ (hacc i hi).1 (hacc i hi).2
  · exact lerPeca_dentro _ h.frente_nonneg h.frente_lt
  · intro p
    exact gravarPeca_dentro _ h.tras_nonneg h.tras_lt p

/-- C15: in a state with `0 ≤ frente < 5` and `0 ≤ tamanho ≤ 5`, the snapshot
that `exibirFila` walks has `tamanho` pieces, its `i`-th piece (from `0`) is
the slot at `(frente + i) mod 5`, and on a non-empty queue the piece printed
as the next to play, `pecas[frente]`, is the first piece of the snapshot. -/
theorem c15_snapshot_order (fila : FilaCircular) (hf0 : 0 ≤ fila.frente)
    (hf5 : fila.frente < 5) (ht0 : 0 ≤ fila.tamanho) (ht5 : fila.tamanho ≤ 5) :
    ((snapshot fila).length : Int) = fila.tamanho ∧
      snapshot fila = (indicesLaco fila.tamanho.toNat fila.frente).map (lerPeca fila.pecas) ∧
      (∀ i : Nat, (i : Int) < fila.tamanho →
        (snapshot fila)[i]? = some (lerPeca fila.pecas ((fila.frente + i) % 5))) ∧
      (fila.tamanho ≠ 0 →
        (exibirFila fila).proxima = some (lerPeca fila.pecas fila.frente) ∧
          (snapshot fila).head? = (exibirFila fila).proxima) := by
  refine ⟨?_, ?_, ?_, ?_⟩
  · rw [snapshot_eq, exibirLaco_length]
    omega
  · rw [snapshot_eq, exibirLaco_eq_map]
  · intro i hi
    rw [snapshot_eq]
    exact exibirLaco_getElem? fila.pecas _ fila.frente i hf0 hf5 (by omega)
  · intro hne
    have hc : filaVazia fila = false := by
      cases hb : filaVazia fila
      · rfl
      · exact absurd ((filaVazia_iff fila).1 hb) hne
    have hprox : (exibirFila fila).proxima = some (lerPeca fila.pecas fila.frente) := by
      simp [exibirFila, hc]
    refine ⟨hprox, ?_⟩
    obtain ⟨n, hn⟩ : ∃ n : Nat, fila.tamanho.toNat = n + 1 :=
      ⟨fila.tamanho.toNat - 1, by omega⟩
    rw [hprox, snapshot_eq, hn]
    rfl

/-- Witness of C15 on `filaExemplo`, whose three pieces wrap around. -/
theorem c15_snapshot_order_witness :
    (0 ≤ filaExemplo.frente ∧ filaExemplo.frente < 5 ∧ 0 ≤ filaExemplo.tamanho ∧
        filaExemplo.tamanho ≤ 5) ∧
      ((snapshot filaExemplo).length : Int) = filaExemplo.tamanho :=
  ⟨by decide,
    (c15_snapshot_order filaExemplo (by decide) (by decide) (by decide) (by decide)).1⟩

/-- C8: with `inicializarFila` as written, when the first call `gerarPeca()`
reads `-1` outside the queue and the other four reach the queue, the snapshot
ids after `inicializarFila` are `-1, 1, 2, 3, 4` with `proximo_id = 5`, not
`1 .. 5` with `6`; the first play action removes the piece with id `-1`, not
`1`; and after five consecutive play actions the ids are `5 .. 9`, not
`6 .. 10`. -/
theorem c8_cenario_d_diverge :
    snapshotIds (menuPrincipal (inicializarFila filaZerada alvoPrimeiroFora (fun _ => 0))
        (jogadasCom [])) = [-1, 1, 2, 3, 4] ∧
      (inicializarFila filaZerada alvoPrimeiroFora (fun _ => 0)).proximo_id = 5 ∧
      (removerPeca (inicializarFila filaZerada alvoPrimeiroFora (fun _ => 0))).1.id = -1 ∧
      snapshotIds (menuPrincipal (inicializarFila filaZerada alvoPrimeiroFora (fun _ => 0))
        (jogadasCom [0, 0, 0, 0, 0])) = [5, 6, 7, 8, 9] := by
  decide

/-- C9, as stated, fails.  With the first call `gerarPeca()` reading `-1`
outside the queue and the other four reaching the queue, the queue starts
with the ids `-1, 1, 2, 3, 4`; after `4294967296` play actions it is still
full, the counter of type `int` has wrapped and the piece at the front has id
`0`; the next option 1 removes it, takes it for the empty-queue signal and
inserts no replacement, so the loop goes on (`opcao = 1`) with
`tamanho = 4`. -/
theorem c9_fila_deixa_de_estar_cheia :
    snapshotIds (inicializarFila filaZerada alvoPrimeiroFora (fun _ => 0)) = [-1, 1, 2, 3, 4] ∧
      (menuPrincipal (inicializarFila filaZerada alvoPrimeiroFora (fun _ => 0))
        (jogadasCom (0 :: List.replicate 4294967295 0))).tamanho = 5 ∧
      (removerPeca (menuPrincipal (inicializarFila filaZerada alvoPrimeiroFora (fun _ => 0))
        (jogadasCom (0 :: List.replicate 4294967295 0)))).1.id = 0 ∧
      (menuPasso (menuPrincipal (inicializarFila filaZerada alvoPrimeiroFora (fun _ => 0))
        (jogadasCom (0 :: List.replicate 4294967295 0))) (some 1) 0).2 = 1 ∧
      (menuPasso (menuPrincipal (inicializarFila filaZerada alvoPrimeiroFora (fun _ => 0))
        (jogadasCom (0 :: List.replicate 4294967295 0))) (some 1) 0).1.tamanho = 4 := by
  have h := cheia_apos_primeiroFora
  have hz : wrapInt 4294967296 = 0 := by decide
  have hpasso : ∀ fila : FilaCircular, menuPasso fila (some 1) 0 = (jogar fila 0, 1) := by
    intro fila
    simp [menuPasso, lerOpcao]
  refine ⟨by decide, h.tamanho_eq, ?_, ?_, ?_⟩
  · rw [h.frente_id, hz]
  · rw [hpasso]
  · rw [hpasso]
    exact h.apos_jogar_zero 0 hz

/-- C9, amended: whatever the calls `gerarPeca()` of line 50 reach, if none of
the five pieces `inicializarFila` leaves in the queue has id `0`, then along
any menu input of numbers within the `int` range in which the number of
selections of option 1 plus the value of `proximo_id` left by
`inicializarFila` is at most `2^32 + 5 = 4294967301`, the queue is full
(`tamanho = 5`) at the start of every loop iteration, so `removerPeca` does
not take the empty-queue branch and the replacement `inserirPeca` does not
take the full-queue branch. -/
theorem c9_fila_cheia_bounded (fila0 : FilaCircular) (alvo : Nat → Alvo) (r : Nat → Nat)
    (entradas : List (Option Int × Nat))
    (h0 : (0 : Int) ∉ snapshotIds (inicializarFila fila0 alvo r))
    (_hint : ∀ e ∈ entradas, entradaInt e.1)
    (hn : (numJogadas entradas : Int) + (inicializarFila fila0 alvo r).proximo_id ≤
      4294967301) :
    ∀ pre post : List (Option Int × Nat), entradas = pre ++ post →
      (menuPrincipal (inicializarFila fila0 alvo r) pre).tamanho = 5 ∧
        filaVazia (menuPrincipal (inicializarFila fila0 alvo r) pre) = false ∧
        ∀ x : Nat, filaCheia (gerarPeca
          (removerPeca (menuPrincipal (inicializarFila fila0 alvo r) pre)).2 x).2 =
            false := by
  intro pre post heq
  have hpre : numJogadas pre ≤ numJogadas entradas := by
    have := numJogadas_append pre post
    rw [← heq] at this
    omega
  obtain ⟨m, _, hch⟩ := Plena.passo_menuPrincipal pre (inicializarFila fila0 alvo r) _
    (Plena.de_inicializarFila fila0 alvo r h0) (by omega)
  have ht := hch.tamanho_eq
  have hrem := removerPeca_snapshot _ hch.anel.frente_nonneg hch.anel.frente_lt
    (by omega) (by omega)
  refine ⟨ht, filaVazia_ocupada (by omega), ?_⟩
  intro x
  simp [filaCheia, gerarPeca, hrem.2.2.1, ht, CAPACIDADE_FILA]

/-- Witness of C9 (amended): a menu input with two play actions, an invalid
selection, a non-numeric entry, a refresh and a quit, after an initialisation
of `filaZerada` whose first call `gerarPeca()` reads `-1` outside the queue. -/
theorem c9_fila_cheia_bounded_witness :
    ((0 : Int) ∉ snapshotIds (inicializarFila filaZerada alvoPrimeiroFora (fun _ => 0)) ∧
        (∀ e ∈ [(some 1, 2), (none, 0), (some 2, 0), (some 7, 0), (some 1, 3), (some 0, 0)],
          entradaInt e.1) ∧
        (numJogadas [(some 1, 2), (none, 0), (some 2, 0), (some 7, 0), (some 1, 3),
            (some 0, 0)] : Int) +
          (inicializarFila filaZerada alvoPrimeiroFora (fun _ => 0)).proximo_id ≤ 4294967301) ∧
      (menuPrincipal (inicializarFila filaZerada alvoPrimeiroFora (fun _ => 0))
        [(some 1, 2), (none, 0), (some 2, 0), (some 7, 0), (some 1, 3), (some 0, 0)]).tamanho =
        5 :=
  ⟨by decide,
    ((c9_fila_cheia_bounded filaZerada alvoPrimeiroFora (fun _ => 0)
      [(some 1, 2), (none, 0), (some 2, 0), (some 7, 0), (some 1, 3), (some 0, 0)]
      (by decide) (by decide) (by decide))
      [(some 1, 2), (none, 0), (some 2, 0), (some 7, 0), (some 1, 3), (some 0, 0)] []
      (List.append_nil _).symm).1⟩

/-- C11, as stated, fails.  With the first call `gerarPeca()` reading `-1`
outside the queue and the other four reaching the queue, the state reached by
`4294967296` play actions holds five pieces, and `removerPeca` removes one
(`tamanho` drops to `4`) whose id is `0`: the counter of type `int` has
wrapped. -/
theorem c11_sentinel_collides :
    filaVazia (menuPrincipal (inicializarFila filaZerada alvoPrimeiroFora (fun _ => 0))
        (jogadasCom (0 :: List.replicate 4294967295 0))) = false ∧
      (removerPeca (menuPrincipal (inicializarFila filaZerada alvoPrimeiroFora (fun _ => 0))
        (jogadasCom (0 :: List.replicate 4294967295 0)))).1.id = 0 ∧
      (removerPeca (menuPrincipal (inicializarFila filaZerada alvoPrimeiroFora (fun _ => 0))
        (jogadasCom (0 :: List.replicate 4294967295 0)))).2.tamanho = 4 := by
  have h := cheia_apos_primeiroFora
  have hz : wrapInt 4294967296 = 0 := by decide
  have ht := h.tamanho_eq
  have hrem := removerPeca_snapshot _ h.anel.frente_nonneg h.anel.frente_lt
    (by omega) (by omega)
  refine ⟨filaVazia_ocupada (by omega), ?_, ?_⟩
  · rw [h.frente_id, hz]
  · rw [hrem.2.2.1, ht]
    rfl

/-- C11, amended: whatever the calls `gerarPeca()` of line 50 reach, if none
of the five pieces `inicializarFila` leaves in the queue has id `0`, then in
every state reached along a menu input of numbers within the `int` range in
which the number of selections of option 1 plus the value of `proximo_id`
left by `inicializarFila` is at most `2^32 + 4 = 4294967300`, `removerPeca`
removes a piece and the piece has a non-zero id; and on such a state and on
an empty queue alike, the test `pecaJogada.id != 0` holds exactly when a
piece was removed. -/
theorem c11_sentinel_bounded (fila0 : FilaCircular) (alvo : Nat → Alvo) (r : Nat → Nat)
    (entradas : List (Option Int × Nat))
    (h0 : (0 : Int) ∉ snapshotIds (inicializarFila fila0 alvo r))
    (_hint : ∀ e ∈ entradas, entradaInt e.1)
    (hn : (numJogadas entradas : Int) + (inicializarFila fila0 alvo r).proximo_id ≤
      4294967300) :
    ∀ pre post : List (Option Int × Nat), entradas = pre ++ post →
      filaVazia (menuPrincipal (inicializarFila fila0 alvo r) pre) = false ∧
        (removerPeca (menuPrincipal (inicializarFila fila0 alvo r) pre)).2.tamanho =
          (menuPrincipal (inicializarFila fila0 alvo r) pre).tamanho - 1 ∧
        (removerPeca (menuPrincipal (inicializarFila fila0 alvo r) pre)).1.id ≠ 0 ∧
        ∀ t : FilaCircular,
          (t = menuPrincipal (inicializarFila fila0 alvo r) pre ∨ t.tamanho = 0) →
          ((removerPeca t).1.id ≠ 0 ↔ (removerPeca t).2.tamanho = t.tamanho - 1) := by
  intro pre post heq
  have hpre : numJogadas pre ≤ numJogadas entradas := by
    have := numJogadas_append pre post
    rw [← heq] at this
    omega
  obtain ⟨m, hm, hch⟩ := Plena.passo_menuPrincipal pre (inicializarFila fila0 alvo r) _
    (Plena.de_inicializarFila fila0 alvo r h0) (by omega)
  have ht := hch.tamanho_eq
  have hrem := removerPeca_snapshot _ hch.anel.frente_nonneg hch.anel.frente_lt
    (by omega) (by omega)
  have hid := hch.frente_nao_zero (by omega)
  refine ⟨filaVazia_ocupada (by omega), hrem.2.2.1, hid, ?_⟩
  intro t ht
  rcases ht with ht | ht
  · rw [ht]
    exact ⟨fun _ => hrem.2.2.1, fun _ => hid⟩
  · rw [removerPeca_vazia ht]
    constructor
    · intro hne
      exact absurd rfl hne
    · intro heq0
      simp only at heq0
      omega

/-- Witness of C11 (amended): the state reached by a menu input with two play
actions and an invalid selection, after an initialisation of `filaZerada`
whose first call `gerarPeca()` reads `-1` outside the queue. -/
theorem c11_sentinel_bounded_witness :
    ((0 : Int) ∉ snapshotIds (inicializarFila filaZerada alvoPrimeiroFora (fun _ => 0)) ∧
        (∀ e ∈ [(some 1, 2), (some 9, 0), (some 1, 3)], entradaInt e.1) ∧
        (numJogadas [(some 1, 2), (some 9, 0), (some 1, 3)] : Int) +
          (inicializarFila filaZerada alvoPrimeiroFora (fun _ => 0)).proximo_id ≤ 4294967300) ∧
      (removerPeca (menuPrincipal (inicializarFila filaZerada alvoPrimeiroFora (fun _ => 0))
        [(some 1, 2), (some 9, 0), (some 1, 3)])).1.id ≠ 0 :=
  ⟨by decide,
    ((c11_sentinel_bounded filaZerada alvoPrimeiroFora (fun _ => 0)
      [(some 1, 2), (some 9, 0), (some 1, 3)] (by decide) (by decide) (by decide))
      [(some 1, 2), (some 9, 0), (some 1, 3)] [] (List.append_nil _).symm).2.2.1⟩

/-- C13: for every queue state, a menu iteration whose selection is a value
of the `int` `opcao` other than `1` (option 2, option 0, a non-numeric entry
read as `-1`, or any other integer of the `int` range) returns the state it
was given, and the loop ends exactly when the selection is `0`: after any
other such selection, and after option 1, it goes on with the rest of the
input. -/
theorem c13_menu_frame (fila : FilaCircular) (entrada : Option Int) (r : Nat)
    (resto : List (Option Int × Nat)) (hint : entradaInt entrada) (h : entrada ≠ some 1) :
    (menuPasso fila entrada r).1 = fila ∧
      (menuPasso fila entrada r).2 = lerOpcao entrada ∧
      lerOpcao none = -1 ∧
      (lerOpcao entrada = 0 ↔ entrada = some 0) ∧
      (entrada = some 0 → menuPrincipal fila ((entrada, r) :: resto) = fila) ∧
      (entrada ≠ some 0 →
        menuPrincipal fila ((entrada, r) :: resto) = menuPrincipal fila resto) ∧
      menuPrincipal fila ((some 1, r) :: resto) = menuPrincipal (jogar fila r) resto := by
  have h1 : lerOpcao entrada ≠ 1 := by
    cases entrada with
    | none => simp [lerOpcao]
    | some v =>
      intro hv
      apply h
      simpa [lerOpcao] using hv
  have h0 : lerOpcao entrada = 0 ↔ entrada = some 0 := by
    cases entrada with
    | none => simp [lerOpcao]
    | some v => simp [lerOpcao]
  refine ⟨?_, ?_, rfl, h0, ?_, ?_, ?_⟩
  · by_cases h2 : lerOpcao entrada = 2 <;> by_cases h3 : lerOpcao entrada = 0 <;>
      simp [menuPasso, h1, h2, h3]
  · by_cases h2 : lerOpcao entrada = 2 <;> by_cases h3 : lerOpcao entrada = 0 <;>
      simp [menuPasso, h1, h2, h3]
  · intro he
    rw [menuPrincipal_cons, if_neg h1, if_pos (h0.2 he)]
  · intro he
    rw [menuPrincipal_cons, if_neg h1, if_neg (fun hz => he (h0.1 hz))]
  · rw [menuPrincipal_cons, if_pos (show lerOpcao (some 1) = 1 from rfl)]

/-- Witness of C13: the invalid selection `7` on `filaExemplo`. -/
theorem c13_menu_frame_witness :
    (entradaInt (some 7) ∧ (some 7 : Option Int) ≠ some 1) ∧
      (menuPasso filaExemplo (some 7) 0).1 = filaExemplo :=
  ⟨by decide, (c13_menu_frame filaExemplo (some 7) 0 [] (by decide) (by decide)).1⟩

/-- C17: `removerPeca` leaves the five slots, `tras` and `proximo_id` as they
were, in every state; an `inserirPeca` on a queue that is not full and whose
`tras` lies in `[0, 5)` writes the piece at the old `tras`, leaves `frente`,
`proximo_id` and the other four slots as they were, and changes `tras` and
`tamanho` only besides. -/
theorem c17_no_element_moves (fila : FilaCircular) (p : Peca) :
    ((removerPeca fila).2.pecas = fila.pecas ∧ (removerPeca fila).2.tras = fila.tras ∧
        (removerPeca fila).2.proximo_id = fila.proximo_id) ∧
      (fila.tamanho ≠ 5 → 0 ≤ fila.tras → fila.tras < 5 →
        (inserirPeca fila p).frente = fila.frente ∧
          (inserirPeca fila p).proximo_id = fila.proximo_id ∧
          (∀ j : Fin 5, (j.val : Int) ≠ fila.tras →
            (inserirPeca fila p).pecas j = fila.pecas j) ∧
          lerPeca (inserirPeca fila p).pecas fila.tras = p ∧
          (inserirPeca fila p).tras = (fila.tras + 1) % 5 ∧
          (inserirPeca fila p).tamanho = wrapInt (fila.tamanho + 1)) := by
  refine ⟨⟨?_, ?_, removerPeca_proximo_id fila⟩, ?_⟩
  · unfold removerPeca
    split <;> rfl
  · unfold removerPeca
    split <;> rfl
  · intro h h0 h5
    rw [inserirPeca_livre h]
    refine ⟨rfl, rfl, ?_, lerPeca_gravarPeca_mesmo fila.pecas h0 h5 p,
      avancar_indice h0 h5, rfl⟩
    intro j hj
    simp only [gravarPeca_dentro fila.pecas h0 h5]
    have hne : j.val ≠ fila.tras.toNat := by omega
    simp [hne]

/-- Witness of C17 on `filaExemplo` and a piece `Z #77`. -/
theorem c17_no_element_moves_witness :
    (filaExemplo.tamanho ≠ 5 ∧ 0 ≤ filaExemplo.tras ∧ filaExemplo.tras < 5) ∧
      (inserirPeca filaExemplo ⟨77, "Z"⟩).frente = filaExemplo.frente :=
  ⟨by decide,
    ((c17_no_element_moves filaExemplo ⟨77, "Z"⟩).2 (by decide) (by decide) (by decide)).1⟩

end Tetris
